import Mathlib

/-!
# Verification of the motorsport-ics repository

A shallow embedding, in Lean 4, of the two Python source files of the
repository (`generate_calendar.py` and `scrape_nascar.py`), together with
theorems settling the specification claims about them.

Conventions of the embedding:

* Python values that matter here (JSON-derived) are modelled by `PyVal`
  (null, string, integer).
* A Python call that may let an exception escape to its caller is modelled
  with `PyRes α`: either a returned value (`ok`) or an uncaught exception
  (`raised`).  Exceptions that the source catches locally are folded into
  `Option` results inside the definitions.
* `datetime` objects are modelled by the number of seconds since
  0001-01-01T00:00:00 (the smallest `datetime.datetime`), an `Int` that is
  kept within `[0, maxInstant]` exactly where CPython keeps a `datetime`
  within `[datetime.min, datetime.max]`.
* Character classes are modelled over ASCII; CPython's `\d` and `int()`
  additionally accept non-ASCII decimal digits, which no claim exercises.
-/

set_option maxRecDepth 100000

namespace MotorsportIcs

/-- Result of a Python call: a returned value, or an uncaught exception
escaping to the caller. -/
inductive PyRes (α : Type) where
  | ok (a : α) : PyRes α
  | raised : PyRes α
deriving DecidableEq, Repr

/-- A JSON-derived Python value as it appears in the raw schedule records:
`None`, a string, or an integer. -/
inductive PyVal where
  | none : PyVal
  | str (s : String) : PyVal
  | int (n : Int) : PyVal
deriving DecidableEq, Repr

/-! ## Character and number utilities -/

/-- ASCII decimal digit test (the `\d` character class as used by
`_strptime`'s regexes, restricted to ASCII). -/
def isAsciiDigit (c : Char) : Bool := 48 ≤ c.toNat && c.toNat ≤ 57

/-- Numeric value of a digit character. -/
def digitVal (c : Char) : Nat := c.toNat - 48

/-- `chIn lo hi c`: the code point of `c` lies in `[lo, hi]`; used to model
the character ranges of `_strptime`'s regexes. -/
def chIn (lo hi : Nat) (c : Char) : Bool := lo ≤ c.toNat && c.toNat ≤ hi

/-- The whitespace characters stripped by Python's `str.strip()` and by
`int()` (ASCII fragment). -/
def isPyWs (c : Char) : Bool :=
  c = ' ' || c = '\t' || c = '\n' || c = '\r' || c.toNat = 11 || c.toNat = 12

/-- Strip `isPyWs` characters from both ends (Python `str.strip()`). -/
def pyStripChars (l : List Char) : List Char :=
  ((l.dropWhile isPyWs).reverse.dropWhile isPyWs).reverse

/-- Value of a list of decimal digit characters. -/
def natOfDigits (l : List Char) : Nat :=
  l.foldl (fun acc c => 10 * acc + digitVal c) 0

/-- Python `int(str)` on a short string: strip whitespace, optional sign,
then one or more decimal digits; anything else raises `ValueError`
(modelled as `none`).  (Digit-group underscores cannot occur in the at most
two-character slices this code feeds to `int()`.) -/
def pyIntOfChars (l : List Char) : Option Int :=
  match pyStripChars l with
  | [] => none
  | c :: ds =>
      if c = '+' then
        (if ds ≠ [] ∧ ds.all isAsciiDigit then some (natOfDigits ds) else none)
      else if c = '-' then
        (if ds ≠ [] ∧ ds.all isAsciiDigit then some (-(natOfDigits ds : Int)) else none)
      else if (c :: ds).all isAsciiDigit then some (natOfDigits (c :: ds)) else none

/-! ## Proleptic Gregorian calendar arithmetic

`datetime` instants are seconds since 0001-01-01T00:00:00.  The civil-date
conversions below are the standard era-based computations over `Nat`,
valid on the `datetime` year range 1..9999. -/

/-- Gregorian leap-year rule (as used by `datetime`). -/
def isLeapYear (y : Nat) : Bool :=
  y % 4 = 0 && (y % 100 ≠ 0 || y % 400 = 0)

/-- Number of days in a month (as validated by the `datetime` constructor). -/
def daysInMonth (y m : Nat) : Nat :=
  if m = 2 then (if isLeapYear y then 29 else 28)
  else if m = 4 ∨ m = 6 ∨ m = 9 ∨ m = 11 then 30
  else 31

/-- Day number of a civil date, counted from 0000-03-01 (valid for `y ≥ 1`). -/
def daysFromCivil (y m d : Nat) : Nat :=
  let y' := if m ≤ 2 then y - 1 else y
  let era := y' / 400
  let yoe := y' % 400
  let mp := (m + 9) % 12
  let doy := (153 * mp + 2) / 5 + (d - 1)
  let doe := yoe * 365 + yoe / 4 - yoe / 100 + doy
  era * 146097 + doe

/-- Civil date `(y, m, d)` of a day count since 0001-01-01. -/
def civilFromDays (n : Nat) : Nat × Nat × Nat :=
  let z := n + 306
  let era := z / 146097
  let doe := z % 146097
  let yoe := (doe - doe / 1460 + doe / 36524 - doe / 146096) / 365
  let y := yoe + era * 400
  let doy := doe - (365 * yoe + yoe / 4 - yoe / 100)
  let mp := (5 * doy + 2) / 153
  let d := doy - (153 * mp + 2) / 5 + 1
  let m := if mp < 10 then mp + 3 else mp - 9
  (if m ≤ 2 then y + 1 else y, m, d)

/-- The instant (seconds since 0001-01-01T00:00:00) of a civil date-time. -/
def instantOfFields (y m d h mi s : Nat) : Int :=
  ((daysFromCivil y m d : Int) - (daysFromCivil 1 1 1 : Int)) * 86400
    + ((h * 3600 + mi * 60 + s : Nat) : Int)

/-- The largest representable `datetime` instant with zero microseconds
(9999-12-31T23:59:59): arithmetic past it raises `OverflowError`. -/
def maxInstant : Int := instantOfFields 9999 12 31 23 59 59

/-! ## `strptime` with format `"%Y-%m-%dT%H:%M:%S"`

CPython's `_strptime` compiles the format to the anchored, full-match
regular expression (with `IGNORECASE`)

  `(\d\d\d\d)-(1[0-2]|0[1-9]|[1-9])-(3[0-1]|[1-2]\d|0[1-9]|[1-9]| [1-9])`
  `[Tt](2[0-3]|[0-1]\d|\d):([0-5]\d|\d):(6[0-1]|[0-5]\d|\d)`

and then the `datetime` constructor validates the field values.  The
parser below implements exactly this, with the regex's ordered-alternative
backtracking made explicit by `tryAlts`. -/

/-- One alternative of a regex field: consume a prefix, produce the field
value and the rest. -/
abbrev Alt := List Char → Option (Nat × List Char)

/-- Two characters of the given classes, read as a two-digit number. -/
def twoDigit (ok₁ ok₂ : Char → Bool) : Alt := fun cs =>
  match cs with
  | c₁ :: c₂ :: rest =>
      if ok₁ c₁ && ok₂ c₂ then some (10 * digitVal c₁ + digitVal c₂, rest) else none
  | _ => none

/-- One character of the given class, read as a one-digit number. -/
def oneDigit (ok : Char → Bool) : Alt := fun cs =>
  match cs with
  | c :: rest => if ok c then some (digitVal c, rest) else none
  | _ => none

/-- A space followed by one character of the given class (the `" [1-9]"`
alternative of `%d`). -/
def spaceDigit (ok : Char → Bool) : Alt := fun cs =>
  match cs with
  | c₀ :: c :: rest =>
      if c₀ = ' ' then (if ok c then some (digitVal c, rest) else none) else none
  | _ => none

/-- Ordered alternatives with backtracking: try each alternative in order;
an alternative is committed only if the continuation `k` also succeeds. -/
def tryAlts {α : Type} (alts : List Alt) (cs : List Char)
    (k : Nat → List Char → Option α) : Option α :=
  match alts with
  | [] => none
  | a :: rest =>
      match a cs with
      | some (n, cs') =>
          match k n cs' with
          | some v => some v
          | none => tryAlts rest cs k
      | none => tryAlts rest cs k

/-- `%m`: `1[0-2]|0[1-9]|[1-9]`. -/
def monthAlts : List Alt :=
  [twoDigit (chIn 49 49) (chIn 48 50), twoDigit (chIn 48 48) (chIn 49 57),
   oneDigit (chIn 49 57)]

/-- `%d`: `3[0-1]|[1-2]\d|0[1-9]|[1-9]| [1-9]`. -/
def dayAlts : List Alt :=
  [twoDigit (chIn 51 51) (chIn 48 49), twoDigit (chIn 49 50) (chIn 48 57),
   twoDigit (chIn 48 48) (chIn 49 57), oneDigit (chIn 49 57),
   spaceDigit (chIn 49 57)]

/-- `%H`: `2[0-3]|[0-1]\d|\d`. -/
def hourAlts : List Alt :=
  [twoDigit (chIn 50 50) (chIn 48 51), twoDigit (chIn 48 49) (chIn 48 57),
   oneDigit (chIn 48 57)]

/-- `%M`: `[0-5]\d|\d`. -/
def minuteAlts : List Alt :=
  [twoDigit (chIn 48 53) (chIn 48 57), oneDigit (chIn 48 57)]

/-- `%S`: `6[0-1]|[0-5]\d|\d`. -/
def secondAlts : List Alt :=
  [twoDigit (chIn 54 54) (chIn 48 49), twoDigit (chIn 48 53) (chIn 48 57),
   oneDigit (chIn 48 57)]

/-- The six fields matched by `strptime(_, "%Y-%m-%dT%H:%M:%S")`. -/
structure DTFields where
  year : Nat
  month : Nat
  day : Nat
  hour : Nat
  minute : Nat
  second : Nat
deriving DecidableEq, Repr

/-- Regex phase of `strptime(s, "%Y-%m-%dT%H:%M:%S")`: anchored at the
start, and the whole input must be consumed (`unconverted data remains`
otherwise).  The literal `T` also matches `t` because `_strptime` compiles
with `IGNORECASE`. -/
def strptimeYmdHMS (cs : List Char) : Option DTFields :=
  match cs with
  | c₁ :: c₂ :: c₃ :: c₄ :: c₅ :: rest =>
      if isAsciiDigit c₁ && isAsciiDigit c₂ && isAsciiDigit c₃ && isAsciiDigit c₄ then
        if c₅ = '-' then
          let y := 1000 * digitVal c₁ + 100 * digitVal c₂ + 10 * digitVal c₃ + digitVal c₄
          tryAlts monthAlts rest fun mo r₁ =>
            match r₁ with
            | c₆ :: r₂ =>
                if c₆ = '-' then
                  tryAlts dayAlts r₂ fun da r₃ =>
                    match r₃ with
                    | c₇ :: r₄ =>
                        if c₇ = 'T' ∨ c₇ = 't' then
                          tryAlts hourAlts r₄ fun h r₅ =>
                            match r₅ with
                            | c₈ :: r₆ =>
                                if c₈ = ':' then
                                  tryAlts minuteAlts r₆ fun mi r₇ =>
                                    match r₇ with
                                    | c₉ :: r₈ =>
                                        if c₉ = ':' then
                                          tryAlts secondAlts r₈ fun sec r₉ =>
                                            match r₉ with
                                            | [] => some ⟨y, mo, da, h, mi, sec⟩
                                            | _ => none
                                        else none
                                    | _ => none
                                else none
                            | _ => none
                        else none
                    | _ => none
                else none
            | _ => none
        else none
      else none
  | _ => none

/-- `datetime.strptime(s, "%Y-%m-%dT%H:%M:%S")`: the regex phase followed
by the `datetime` constructor's range validation; `ValueError` is modelled
as `none`. -/
def strptimeInstant (cs : List Char) : Option Int :=
  match strptimeYmdHMS cs with
  | none => none
  | some f =>
      if 1 ≤ f.year ∧ f.year ≤ 9999 ∧ 1 ≤ f.month ∧ f.month ≤ 12 ∧
         1 ≤ f.day ∧ f.day ≤ daysInMonth f.year f.month ∧
         f.hour ≤ 23 ∧ f.minute ≤ 59 ∧ f.second ≤ 59 then
        some (instantOfFields f.year f.month f.day f.hour f.minute f.second)
      else none

/-- `parse_race_datetime` on the character list of its argument.
Mirrors `generate_calendar.py` lines 31-57: empty string → `None`;
length > 19 → `strptime` on the first 19 characters, then the offset tail
is applied (`dt - offset`, converting to UTC), where the sign is `+1`
exactly when the tail's first character is `'+'` (anything else means
`-1`), hours are `int(tz[1:3])` and minutes `int(tz[3:5])` when the tail
has at least 5 characters, else `0`; `ValueError`/`IndexError` are caught
(`none` results), but an out-of-range `dt - offset` raises an uncaught
`OverflowError`. -/
def parseRaceChars (cs : List Char) : PyRes (Option Int) :=
  if cs.isEmpty then .ok none
  else if 19 < cs.length then
    match strptimeInstant (cs.take 19) with
    | none => .ok none
    | some inst =>
        let tz := cs.drop 19
        let sign : Int := if tz.head? = some '+' then 1 else -1
        match pyIntOfChars ((tz.drop 1).take 2) with
        | none => .ok none
        | some hrs =>
            match (if 5 ≤ tz.length then pyIntOfChars ((tz.drop 3).take 2) else some 0) with
            | none => .ok none
            | some mins =>
                let offset := (hrs * 3600 + mins * 60) * sign
                let r := inst - offset
                if 0 ≤ r ∧ r ≤ maxInstant then .ok (some r) else .raised
  else
    match strptimeInstant cs with
    | none => .ok none
    | some inst => .ok (some inst)

/-- `parse_race_datetime` (`generate_calendar.py` lines 31-57). -/
def parse_race_datetime (s : String) : PyRes (Option Int) :=
  parseRaceChars s.data

/-- Digit characters `0`-`9` (and `a`-`f` for hex), as produced by number
formatting. -/
def digitChar (n : Nat) : Char := Nat.digitChar n

/-- Zero-padded two-digit rendering (`%02d`-style), for `n < 100`. -/
def pad2 (n : Nat) : List Char := [digitChar (n / 10), digitChar (n % 10)]

/-- Zero-padded four-digit rendering, for `n < 10000`. -/
def pad4 (n : Nat) : List Char :=
  [digitChar (n / 1000), digitChar (n / 100 % 10), digitChar (n / 10 % 10),
   digitChar (n % 10)]

/-- `format_ics_datetime` (`generate_calendar.py` lines 60-62):
`dt.strftime("%Y%m%dT%H%M%SZ")` on an instant (all instants formatted by
the program are nonnegative; years of formatted instants are ≥ 1000, where
`%Y` is four digits). -/
def format_ics_datetime (t : Int) : String :=
  let n := t.toNat
  let c := civilFromDays (n / 86400)
  let rem := n % 86400
  String.mk (pad4 c.1 ++ pad2 c.2.1 ++ pad2 c.2.2 ++ 'T' :: pad2 (rem / 3600)
    ++ pad2 (rem % 3600 / 60) ++ pad2 (rem % 60) ++ ['Z'])

/-! ## MD5 (`hashlib.md5`)

The RFC 1321 algorithm over byte lists (bytes are `Nat` values below 256,
words are `Nat` values below `2^32`, with explicit reduction `% 4294967296`
where 32-bit overflow matters). -/

/-- `2^32`, the word modulus of MD5. -/
def w32 : Nat := 4294967296

/-- Left-rotation of a 32-bit word. -/
def rotl32 (x s : Nat) : Nat :=
  ((x <<< s) % w32) + (x >>> (32 - s))

/-- 32-bit complement. -/
def not32 (x : Nat) : Nat := 4294967295 ^^^ x

/-- The MD5 sine-derived constant table `K`. -/
def md5K : List Nat :=
  [3614090360, 3905402710, 606105819, 3250441966, 4118548399, 1200080426, 2821735955, 4249261313,
   1770035416, 2336552879, 4294925233, 2304563134, 1804603682, 4254626195, 2792965006, 1236535329,
   4129170786, 3225465664, 643717713, 3921069994, 3593408605, 38016083, 3634488961, 3889429448,
   568446438, 3275163606, 4107603335, 1163531501, 2850285829, 4243563512, 1735328473, 2368359562,
   4294588738, 2272392833, 1839030562, 4259657740, 2763975236, 1272893353, 4139469664, 3200236656,
   681279174, 3936430074, 3572445317, 76029189, 3654602809, 3873151461, 530742520, 3299628645,
   4096336452, 1126891415, 2878612391, 4237533241, 1700485571, 2399980690, 4293915773, 2240044497,
   1873313359, 4264355552, 2734768916, 1309151649, 4149444226, 3174756917, 718787259, 3951481745]

/-- The MD5 per-round shift table `s`. -/
def md5S : List Nat :=
  [7, 12, 17, 22, 7, 12, 17, 22, 7, 12, 17, 22, 7, 12, 17, 22,
   5, 9, 14, 20, 5, 9, 14, 20, 5, 9, 14, 20, 5, 9, 14, 20,
   4, 11, 16, 23, 4, 11, 16, 23, 4, 11, 16, 23, 4, 11, 16, 23,
   6, 10, 15, 21, 6, 10, 15, 21, 6, 10, 15, 21, 6, 10, 15, 21]

/-- `k` little-endian bytes of `n`. -/
def leBytes : Nat → Nat → List Nat
  | 0, _ => []
  | k + 1, n => n % 256 :: leBytes k (n / 256)

/-- The state of MD5: four 32-bit words. -/
structure MD5State where
  a : Nat
  b : Nat
  c : Nat
  d : Nat
deriving DecidableEq, Repr

/-- One of the 64 MD5 rounds on a 16-word message schedule `M`. -/
def md5Round (M : Nat → Nat) (st : MD5State) (i : Nat) : MD5State :=
  let F :=
    if i < 16 then (st.b &&& st.c) ||| (not32 st.b &&& st.d)
    else if i < 32 then (st.d &&& st.b) ||| (not32 st.d &&& st.c)
    else if i < 48 then st.b ^^^ st.c ^^^ st.d
    else st.c ^^^ (st.b ||| not32 st.d)
  let g :=
    if i < 16 then i
    else if i < 32 then (5 * i + 1) % 16
    else if i < 48 then (3 * i + 5) % 16
    else (7 * i) % 16
  let F' := (F + st.a + md5K.getD i 0 + M g) % w32
  { a := st.d, b := (st.b + rotl32 F' (md5S.getD i 0)) % w32, c := st.b, d := st.c }

/-- Process one 64-byte chunk. -/
def md5Chunk (st : MD5State) (chunk : List Nat) : MD5State :=
  let M : Nat → Nat := fun g =>
    chunk.getD (4 * g) 0 + 256 * chunk.getD (4 * g + 1) 0
      + 65536 * chunk.getD (4 * g + 2) 0 + 16777216 * chunk.getD (4 * g + 3) 0
  let r := (List.range 64).foldl (md5Round M) st
  { a := (st.a + r.a) % w32, b := (st.b + r.b) % w32,
    c := (st.c + r.c) % w32, d := (st.d + r.d) % w32 }

/-- Split a (padded) byte list into 64-byte chunks (structural recursion on
a fuel counter so that the definition reduces in the kernel; the fuel
`l.length + 1` always suffices because every step drops 64 bytes). -/
def md5ChunksFuel : Nat → List Nat → List (List Nat)
  | 0, _ => []
  | fuel + 1, l => if l = [] then [] else l.take 64 :: md5ChunksFuel fuel (l.drop 64)

/-- Split a (padded) byte list into 64-byte chunks. -/
def md5Chunks (l : List Nat) : List (List Nat) := md5ChunksFuel (l.length + 1) l

/-- MD5 padding: a `0x80` byte, zeros to 56 mod 64, then the bit length as
eight little-endian bytes. -/
def md5Pad (msg : List Nat) : List Nat :=
  msg ++ 128 :: List.replicate ((119 - msg.length % 64) % 64) 0
    ++ leBytes 8 ((8 * msg.length) % 18446744073709551616)

/-- The MD5 digest (16 bytes) of a byte list. -/
def md5 (msg : List Nat) : List Nat :=
  let fin := (md5Chunks (md5Pad msg)).foldl md5Chunk
    { a := 1732584193, b := 4023233417, c := 2562383102, d := 271733878 }
  leBytes 4 fin.a ++ leBytes 4 fin.b ++ leBytes 4 fin.c ++ leBytes 4 fin.d

/-- Lower-case hex digit characters (as in `hexdigest`). -/
def digitCharHex (n : Nat) : Char := Nat.digitChar n

/-- A byte rendered as two lower-case hex characters. -/
def byteToHex (b : Nat) : List Char := [digitCharHex (b / 16), digitCharHex (b % 16)]

/-- `hexdigest()`: the digest bytes in lower-case hex. -/
def md5HexChars (msg : List Nat) : List Char := ((md5 msg).map byteToHex).flatten

/-- UTF-8 encoding of one character (`str.encode()`). -/
def charUtf8 (c : Char) : List Nat :=
  let n := c.toNat
  if n < 128 then [n]
  else if n < 2048 then [192 + n / 64, 128 + n % 64]
  else if n < 65536 then [224 + n / 4096, 128 + n / 64 % 64, 128 + n % 64]
  else [240 + n / 262144, 128 + n / 4096 % 64, 128 + n / 64 % 64, 128 + n % 64]

/-- UTF-8 bytes of a string (`str.encode()`). -/
def utf8Bytes (s : String) : List Nat := (s.data.map charUtf8).flatten

/-! ## `generate_uid` and `escape_ics_text` -/

/-- Python `f"{v}"` for an optional integer (`None` prints as `"None"`). -/
def pyOptIntRepr : Option Int → String
  | Option.none => "None"
  | Option.some n => toString n

/-- The string `f"{race_id}-{series}"` hashed by `generate_uid` and used as
the deduplication key in `generate_ics_calendar`. -/
def uidKeyString (race_id : Option Int) (series : String) : String :=
  pyOptIntRepr race_id ++ "-" ++ series

/-- `generate_uid` (`generate_calendar.py` lines 13-16):
`md5(f"{race_id}-{series}".encode()).hexdigest()[:16] + "@nascar-scraper"`.
The race identifier is `Option Int` because a record's `race_id` can be
JSON null, which the call sites pass through. -/
def generate_uid (race_id : Option Int) (series : String) : String :=
  String.mk ((md5HexChars (utf8Bytes (uidKeyString race_id series))).take 16)
    ++ "@nascar-scraper"

/-- Replace every occurrence of the character `c` by `rep`
(Python `str.replace` with a one-character pattern). -/
def replaceChar (c : Char) (rep : List Char) : List Char → List Char
  | [] => []
  | x :: xs => if x = c then rep ++ replaceChar c rep xs else x :: replaceChar c rep xs

/-- The four substitutions of `escape_ics_text`, innermost (backslash)
first: `\ → \\`, then `; → \;`, then `, → \,`, then newline → `\n`. -/
def escapeChars (l : List Char) : List Char :=
  replaceChar '\n' ['\\', 'n']
    (replaceChar ',' ['\\', ',']
      (replaceChar ';' ['\\', ';']
        (replaceChar '\\' ['\\', '\\'] l)))

/-- `escape_ics_text` (`generate_calendar.py` lines 19-28). -/
def escape_ics_text (text : String) : String :=
  if text = "" then "" else String.mk (escapeChars text.data)

/-! ## `create_ics_event` and `generate_ics_calendar`

The calendar emitter consumes the canonical race records of the
interchange JSON (`all_races_chronological`): every key used by the
emitter is present, textual fields are strings (possibly empty) and the
numeric fields `race_id` / `scheduled_laps` are integers or JSON null.
The `dict.get` defaults of the source therefore never fire and each
`race.get(k)` / `race.get(k, default)` is the record's field itself.
`datetime.now(timezone.utc)` is modelled by the explicit parameter
`now`. -/

/-- A canonical race record as consumed by the calendar emitter. -/
structure RaceRec where
  race_name : String
  track_name : String
  state : String
  date : String
  start_time : String
  scheduled_laps : Option Int
  tv_network : String
  radio : String
  streaming : String
  race_url : String
  race_id : Option Int
  series : String
deriving DecidableEq, Repr

/-- Python truthiness of an optional integer (`None` and `0` are falsy). -/
def optIntTruthy : Option Int → Bool
  | Option.none => false
  | Option.some n => n ≠ 0

/-- Python `sep.join(parts)`. -/
def joinSep (sep : String) : List String → String
  | [] => ""
  | [a] => a
  | a :: rest => a ++ sep ++ joinSep sep rest

/-- The `location` built by `create_ics_event` (line 88):
`f"{track_name}, {state}" if track_name else ""`. -/
def eventLocation (race : RaceRec) : String :=
  if race.track_name ≠ "" then race.track_name ++ ", " ++ race.state else ""

/-- The `desc_parts` list built by `create_ics_event` (lines 91-107):
the labeled lines, optional ones included only when their field is
truthy. -/
def descParts (race : RaceRec) (series_name : String) : List String :=
  ["Series: " ++ series_name, "Track: " ++ race.track_name]
  ++ (if optIntTruthy race.scheduled_laps then
        ["Laps: " ++ pyOptIntRepr race.scheduled_laps] else [])
  ++ (if race.start_time ≠ "" then
        ["Start Time: " ++ race.start_time ++ " (local)"] else [])
  ++ (if race.tv_network ≠ "" then ["TV: " ++ race.tv_network] else [])
  ++ (if race.radio ≠ "" then ["Radio: " ++ race.radio] else [])
  ++ (if race.streaming ≠ "" then ["Streaming: " ++ race.streaming] else [])
  ++ (if race.race_url ≠ "" then ["", "More info: " ++ race.race_url] else [])

/-- The body of `create_ics_event` (`generate_calendar.py` lines 65-131)
with the produced `VEVENT` kept as its list of lines: `ok none` models the
`return ""` for an unparseable date, `raised` the uncaught
`OverflowError` (from `parse_race_datetime` or from
`dt + timedelta(hours=4)` leaving the `datetime` range). -/
def createEventCore (race : RaceRec) (series_name : String) (now : Int) :
    PyRes (Option (List String)) :=
  match parseRaceChars race.date.data with
  | .raised => .raised
  | .ok Option.none => .ok none
  | .ok (Option.some dt) =>
      if maxInstant < dt + 14400 then .raised
      else
        .ok (some
          (["BEGIN:VEVENT",
            "UID:" ++ generate_uid race.race_id series_name,
            "DTSTAMP:" ++ format_ics_datetime now,
            "DTSTART:" ++ format_ics_datetime dt,
            "DTEND:" ++ format_ics_datetime (dt + 14400),
            "SUMMARY:" ++ escape_ics_text (race.race_name ++ " (" ++ series_name ++ ")"),
            "LOCATION:" ++ escape_ics_text (eventLocation race),
            "DESCRIPTION:" ++ joinSep "\\n" (descParts race series_name)]
           ++ (if race.race_url ≠ "" then ["URL:" ++ race.race_url] else [])
           ++ ["END:VEVENT"]))

/-- `create_ics_event` (`generate_calendar.py` lines 65-131): the joined
event text, `""` when the record's date does not parse. -/
def create_ics_event (race : RaceRec) (series_name : String) (now : Int) :
    PyRes String :=
  match createEventCore race series_name now with
  | .raised => .raised
  | .ok Option.none => .ok ""
  | .ok (Option.some ls) => .ok (joinSep "\n" ls)

/-- The event text `create_ics_event` produces for a record in
`generate_ics_calendar`'s loop (where `series_name` is the record's own
`series` field); `""` when the call would raise. -/
def eventText (race : RaceRec) (now : Int) : String :=
  match create_ics_event race race.series now with
  | .ok ev => ev
  | .raised => ""

/-- The deduplication key `f"{race_id}-{series}"` of
`generate_ics_calendar` (line 164); identical to the string hashed by
`generate_uid`. -/
def eventKey (race : RaceRec) : String := uidKeyString race.race_id race.series

/-- The loop state of `generate_ics_calendar`: emitted event texts, the
`added_events` set (as the list of keys in insertion order) and
`event_count`. -/
structure GenState where
  lines : List String
  seen : List String
  count : Nat
deriving DecidableEq, Repr

/-- One iteration of the loop of `generate_ics_calendar`
(`generate_calendar.py` lines 159-172). -/
def genStep (now : Int) (st : GenState) (race : RaceRec) : PyRes GenState :=
  if eventKey race ∈ st.seen then .ok st
  else
    match create_ics_event race race.series now with
    | .raised => .raised
    | .ok ev =>
        if ev = "" then .ok st
        else .ok ⟨st.lines ++ [ev], st.seen ++ [eventKey race], st.count + 1⟩

/-- The loop of `generate_ics_calendar`, aborting on an uncaught
exception. -/
def genFold (now : Int) : GenState → List RaceRec → PyRes GenState
  | st, [] => .ok st
  | st, r :: rs =>
      match genStep now st r with
      | .raised => .raised
      | .ok st' => genFold now st' rs

/-- The fixed calendar header lines (`generate_calendar.py` lines 145-153). -/
def icsHeader : List String :=
  ["BEGIN:VCALENDAR", "VERSION:2.0", "PRODID:-//NASCAR Scraper//nascar-scraper//EN",
   "CALSCALE:GREGORIAN", "METHOD:PUBLISH", "X-WR-CALNAME:2026 NASCAR Schedule",
   "X-WR-TIMEZONE:America/New_York"]

/-- `generate_ics_calendar` (`generate_calendar.py` lines 134-181) on the
in-memory race list (file reading and writing are opaque): the lines of
the written document and the returned `event_count`. -/
def generate_ics_calendar (races : List RaceRec) (now : Int) :
    PyRes (List String × Nat) :=
  match genFold now ⟨[], [], 0⟩ races with
  | .raised => .raised
  | .ok st => .ok (icsHeader ++ st.lines ++ ["END:VCALENDAR"], st.count)

/-! ## The scraper's normalizer (`scrape_nascar.py`) -/

/-- `clean_string` (`scrape_nascar.py` lines 34-38): `None → ""`, anything
else `str(value).strip()`. -/
def clean_string (v : PyVal) : String :=
  match v with
  | .none => ""
  | .str s => String.mk (pyStripChars s.data)
  | .int n => String.mk (pyStripChars (toString n).data)

/-- A raw race record of the provider feed: the fields the normalizer
reads, each a JSON-derived value.  `dict.get` on a missing key returns
`None`, so an absent key and a null value are both `PyVal.none`. -/
structure RawRace where
  Race_Name : PyVal
  Race_Id : PyVal
  Track_Name : PyVal
  Track_Id : PyVal
  Race_State : PyVal
  Race_Date : PyVal
  Race_Date_Plain : PyVal
  Race_Start : PyVal
  Scheduled_Laps : PyVal
  Actual_Laps : PyVal
  Qualifying_Date : PyVal
  Playoff_Round : PyVal
  Race_TV : PyVal
  Race_Radio : PyVal
  Race_Live_Stream : PyVal
  Race_In_Car : PyVal
  Race_Tickets : PyVal
  Race_URL : PyVal
  Previous_Winner_Name : PyVal
  Alt_Track_Name : PyVal
  Track_Page_URL : PyVal
  Track_Image_URL : PyVal
  Track_Background_Image_URL : PyVal
deriving DecidableEq, Repr

/-- The canonical race record produced by `extract_race_info`: textual
fields are cleaned strings, numeric fields pass through unmodified. -/
structure CanonRace where
  race_name : String
  race_id : PyVal
  track_name : String
  track_id : PyVal
  state : String
  date : String
  date_plain : String
  start_time : String
  scheduled_laps : PyVal
  actual_laps : PyVal
  qualifying_date : String
  playoff_round : String
  tv_network : String
  radio : String
  streaming : String
  in_car_camera : String
  tickets_url : String
  race_url : String
  previous_winner : String
deriving DecidableEq, Repr

/-- `extract_race_info` (`scrape_nascar.py` lines 41-63). -/
def extract_race_info (race : RawRace) : CanonRace where
  race_name := clean_string race.Race_Name
  race_id := race.Race_Id
  track_name := clean_string race.Track_Name
  track_id := race.Track_Id
  state := clean_string race.Race_State
  date := clean_string race.Race_Date
  date_plain := clean_string race.Race_Date_Plain
  start_time := clean_string race.Race_Start
  scheduled_laps := race.Scheduled_Laps
  actual_laps := race.Actual_Laps
  qualifying_date := clean_string race.Qualifying_Date
  playoff_round := clean_string race.Playoff_Round
  tv_network := clean_string race.Race_TV
  radio := clean_string race.Race_Radio
  streaming := clean_string race.Race_Live_Stream
  in_car_camera := clean_string race.Race_In_Car
  tickets_url := clean_string race.Race_Tickets
  race_url := clean_string race.Race_URL
  previous_winner := clean_string race.Previous_Winner_Name

/-- A canonical track record produced by `extract_track_info`. -/
structure TrackRec where
  track_id : PyVal
  track_name : String
  alt_track_name : String
  state : String
  track_page_url : String
  track_image_url : String
  track_background_image_url : String
deriving DecidableEq, Repr

/-- `extract_track_info` (`scrape_nascar.py` lines 66-76). -/
def extract_track_info (race : RawRace) : TrackRec where
  track_id := race.Track_Id
  track_name := clean_string race.Track_Name
  alt_track_name := clean_string race.Alt_Track_Name
  state := clean_string race.Race_State
  track_page_url := clean_string race.Track_Page_URL
  track_image_url := clean_string race.Track_Image_URL
  track_background_image_url := clean_string race.Track_Background_Image_URL

/-- Python truthiness of a JSON-derived value (`None`, `0` and `""` are
falsy). -/
def pyTruthy (v : PyVal) : Bool :=
  match v with
  | .none => false
  | .str s => s ≠ ""
  | .int n => n ≠ 0

/-- The track-collection loop of `main` (`scrape_nascar.py` lines
144-148): `all_tracks` is an insertion-ordered association list keyed by
`Track_Id`; a record is added only when its `Track_Id` is truthy and not
yet a key. -/
def addTracks : List RawRace → List (PyVal × TrackRec) → List (PyVal × TrackRec)
  | [], acc => acc
  | r :: rs, acc =>
      if pyTruthy r.Track_Id ∧ r.Track_Id ∉ acc.map Prod.fst then
        addTracks rs (acc ++ [(r.Track_Id, extract_track_info r)])
      else addTracks rs acc

/-- `all_tracks` after scanning the raw race records of all series in
order, starting from the empty dict. -/
def collectTracks (races : List RawRace) : List (PyVal × TrackRec) :=
  addTracks races []

/-- A sample canonical record (the end-to-end example of the spec):
race 5123 of the Cup Series at Daytona. -/
def daytonaRace : RaceRec where
  race_name := "Daytona 500"
  track_name := "Daytona International Speedway"
  state := "FL"
  date := "2026-02-15T14:30:00-0500"
  start_time := ""
  scheduled_laps := none
  tv_network := ""
  radio := ""
  streaming := ""
  race_url := ""
  race_id := some 5123
  series := "NASCAR Cup Series"

/-- A fixed generation time for the examples: 2026-01-01T00:00:00Z. -/
def sampleNow : Int := instantOfFields 2026 1 1 0 0 0

/-! ## Claim-side definitions

Definitions below formalize the wording of the specification claims (not
the source); theorems relate them to the embedded code. -/

/-- The cleaning contract of one textual field, as the spec words it:
a missing-or-null source value becomes `""`; a present string is stripped
of leading and trailing whitespace; any other present value is converted
to text and stripped. -/
def TextualOK (v : PyVal) (out : String) : Prop :=
  (v = PyVal.none → out = "") ∧
  (∀ s, v = PyVal.str s → out = String.mk (pyStripChars s.data)) ∧
  (∀ n, v = PyVal.int n → out = String.mk (pyStripChars (toString n).data))

/-- Lookup in an association list (the model of `all_tracks[track_id]`). -/
def assocFind (k : PyVal) : List (PyVal × TrackRec) → Option TrackRec
  | [] => none
  | (k', v) :: rest => if k' = k then some v else assocFind k rest

/-- The first raw record of the list whose `Track_Id` equals `tid`. -/
def firstWithTid (tid : PyVal) : List RawRace → Option RawRace
  | [] => none
  | r :: rs => if r.Track_Id = tid then some r else firstWithTid tid rs

/-- A raw record with every field null/missing, the base of the concrete
sample records. -/
def rawBlank : RawRace where
  Race_Name := .none
  Race_Id := .none
  Track_Name := .none
  Track_Id := .none
  Race_State := .none
  Race_Date := .none
  Race_Date_Plain := .none
  Race_Start := .none
  Scheduled_Laps := .none
  Actual_Laps := .none
  Qualifying_Date := .none
  Playoff_Round := .none
  Race_TV := .none
  Race_Radio := .none
  Race_Live_Stream := .none
  Race_In_Car := .none
  Race_Tickets := .none
  Race_URL := .none
  Previous_Winner_Name := .none
  Alt_Track_Name := .none
  Track_Page_URL := .none
  Track_Image_URL := .none
  Track_Background_Image_URL := .none

/-- A raw record with a null race name, a padded track name and an
integer race identifier (C8's sample input). -/
def rawPadded : RawRace :=
  { rawBlank with Track_Name := .str "  Daytona  ", Race_Id := .int 5123 }

/-- Raw records sharing the truthy track identifier `5` with different
names. -/
def rawTrack5a : RawRace :=
  { rawBlank with Track_Id := .int 5, Track_Name := .str "First" }

/-- Second record with track identifier `5`. -/
def rawTrack5b : RawRace :=
  { rawBlank with Track_Id := .int 5, Track_Name := .str "Second" }

/-- Raw record with the falsy track identifier `0`. -/
def rawTrack0a : RawRace :=
  { rawBlank with Track_Id := .int 0, Track_Name := .str "A" }

/-- Second raw record with track identifier `0`. -/
def rawTrack0b : RawRace :=
  { rawBlank with Track_Id := .int 0, Track_Name := .str "B" }

/-- The date shape the spec describes: exactly `YYYY-MM-DDTHH:MM:SS`,
optionally followed by a signed (`+` or `-`) 4-digit UTC offset. -/
def strictShape (s : String) : Bool :=
  match s.data with
  | [y1, y2, y3, y4, '-', m1, m2, '-', d1, d2, 'T', h1, h2, ':', n1, n2, ':', s1, s2] =>
      [y1, y2, y3, y4, m1, m2, d1, d2, h1, h2, n1, n2, s1, s2].all isAsciiDigit
  | [y1, y2, y3, y4, '-', m1, m2, '-', d1, d2, 'T', h1, h2, ':', n1, n2, ':', s1, s2,
     sg, o1, o2, o3, o4] =>
      [y1, y2, y3, y4, m1, m2, d1, d2, h1, h2, n1, n2, s1, s2, o1, o2, o3, o4].all isAsciiDigit
        && (sg = '+' || sg = '-')
  | _ => false

/-- No bare (unescaped) comma: scanning left to right, a backslash
escapes the following character, and no comma may occur unescaped.  Text
escaped per the iCalendar rules (the claim's requirement) satisfies
this. -/
def noBareComma : List Char → Bool
  | [] => true
  | '\\' :: _ :: rest => noBareComma rest
  | ',' :: _ => false
  | _ :: rest => noBareComma rest

/-- A canonical record whose track name contains a comma and whose date
parses (C2's sample input). -/
def c2Race : RaceRec where
  race_name := "R"
  track_name := "A,B"
  state := ""
  date := "2026-02-15T14:30:00"
  start_time := ""
  scheduled_laps := none
  tv_network := ""
  radio := ""
  streaming := ""
  race_url := ""
  race_id := some 1
  series := "S"

/-- A record whose date parses to 9999-12-31T21:00:00, three hours before
the end of the `datetime` range (C5/C7's overflow input). -/
def race9999 : RaceRec where
  race_name := "Late"
  track_name := ""
  state := ""
  date := "9999-12-31T21:00:00"
  start_time := ""
  scheduled_laps := none
  tv_network := ""
  radio := ""
  streaming := ""
  race_url := ""
  race_id := some 2
  series := "S"

/-- A record with an empty date string but the same deduplication key
fields as a later, parseable record would use (C10's sample input). -/
def emptyDateRace : RaceRec :=
  { daytonaRace with date := "" }

/-- The claim's "records with parseable dates": the record's date string
parses to an instant (neither sentinel nor exception). -/
def dateParses (r : RaceRec) : Bool :=
  match parseRaceChars r.date.data with
  | .ok (some _) => true
  | _ => false

/-- First-occurrence selection: keep the first record carrying each key
not yet in `ks`. -/
def firstPerKey : List RaceRec → List String → List RaceRec
  | [], _ => []
  | r :: rs, ks =>
      if eventKey r ∈ ks then firstPerKey rs ks
      else r :: firstPerKey rs (ks ++ [eventKey r])

/-- The claim's selection: one record per unique (race identifier,
series) key among the records with parseable dates, first occurrence
winning. -/
def selectedRaces (races : List RaceRec) : List RaceRec :=
  firstPerKey (races.filter dateParses) []

/-- A second record with the Daytona race's key (same `race_id` and
`series`) but different other fields (C5's duplicate sample). -/
def daytonaRace2 : RaceRec :=
  { daytonaRace with track_name := "Other Track", tv_network := "FOX" }

/-- The claim's date-time rendering `YYYY-MM-DDTHH:MM:SS` (zero-padded
fields). -/
def renderDT (y mo d h mi s : Nat) : List Char :=
  pad4 y ++ '-' :: (pad2 mo ++ '-' :: (pad2 d ++ 'T' :: (pad2 h ++ ':' :: (pad2 mi ++ ':' :: pad2 s))))

/-- The claim's signed 4-digit UTC offset `±HHMM`. -/
def renderOffset4 (sg : Bool) (oh om : Nat) : List Char :=
  (if sg then '+' else '-') :: (pad2 oh ++ pad2 om)

/-- A signed offset without the minutes component, `±HH` (the claim's
"missing minutes" form). -/
def renderOffset2 (sg : Bool) (oh : Nat) : List Char :=
  (if sg then '+' else '-') :: pad2 oh

/-- The offset in seconds: `(hours*3600 + minutes*60) * sign`, exactly as
the code computes `timedelta(hours=tz_hours, minutes=tz_mins) * tz_sign`. -/
def offsetSecs (sg : Bool) (oh om : Nat) : Int :=
  ((oh : Int) * 3600 + (om : Int) * 60) * (if sg then 1 else -1)

/-! The lenient grammar actually accepted by the code's date parsing,
written from the amended claim's wording as structural decompositions
(independent of the parser functions). -/

/-- A month segment of the lenient grammar: `1[0-2]`, `0[1-9]` or a
single `[1-9]`. -/
def MonthSeg (seg : List Char) : Prop :=
  (∃ a b, seg = [a, b] ∧
    ((a.toNat = 49 ∧ 48 ≤ b.toNat ∧ b.toNat ≤ 50) ∨
     (a.toNat = 48 ∧ 49 ≤ b.toNat ∧ b.toNat ≤ 57))) ∨
  (∃ a, seg = [a] ∧ 49 ≤ a.toNat ∧ a.toNat ≤ 57)

/-- A day segment: `3[0-1]`, `[1-2][0-9]`, `0[1-9]`, `[1-9]` or a space
followed by `[1-9]`. -/
def DaySeg (seg : List Char) : Prop :=
  (∃ a b, seg = [a, b] ∧
    ((a.toNat = 51 ∧ 48 ≤ b.toNat ∧ b.toNat ≤ 49) ∨
     (49 ≤ a.toNat ∧ a.toNat ≤ 50 ∧ 48 ≤ b.toNat ∧ b.toNat ≤ 57) ∨
     (a.toNat = 48 ∧ 49 ≤ b.toNat ∧ b.toNat ≤ 57) ∨
     (a = ' ' ∧ 49 ≤ b.toNat ∧ b.toNat ≤ 57))) ∨
  (∃ a, seg = [a] ∧ 49 ≤ a.toNat ∧ a.toNat ≤ 57)

/-- An hour segment: `2[0-3]`, `[0-1][0-9]` or a single digit. -/
def HourSeg (seg : List Char) : Prop :=
  (∃ a b, seg = [a, b] ∧
    ((a.toNat = 50 ∧ 48 ≤ b.toNat ∧ b.toNat ≤ 51) ∨
     (48 ≤ a.toNat ∧ a.toNat ≤ 49 ∧ 48 ≤ b.toNat ∧ b.toNat ≤ 57))) ∨
  (∃ a, seg = [a] ∧ 48 ≤ a.toNat ∧ a.toNat ≤ 57)

/-- A minute segment: `[0-5][0-9]` or a single digit. -/
def MinuteSeg (seg : List Char) : Prop :=
  (∃ a b, seg = [a, b] ∧ 48 ≤ a.toNat ∧ a.toNat ≤ 53 ∧ 48 ≤ b.toNat ∧ b.toNat ≤ 57) ∨
  (∃ a, seg = [a] ∧ 48 ≤ a.toNat ∧ a.toNat ≤ 57)

/-- A second segment: `6[0-1]`, `[0-5][0-9]` or a single digit. -/
def SecondSeg (seg : List Char) : Prop :=
  (∃ a b, seg = [a, b] ∧
    ((a.toNat = 54 ∧ 48 ≤ b.toNat ∧ b.toNat ≤ 49) ∨
     (48 ≤ a.toNat ∧ a.toNat ≤ 53 ∧ 48 ≤ b.toNat ∧ b.toNat ≤ 57))) ∨
  (∃ a, seg = [a] ∧ 48 ≤ a.toNat ∧ a.toNat ≤ 57)

/-- The lenient date-time grammar: four digits, `-`, month segment, `-`,
day segment, `T` or `t`, hour segment, `:`, minute segment, `:`, second
segment — nothing left over. -/
def Lenient19 (cs : List Char) : Prop :=
  ∃ (y₁ y₂ y₃ y₄ t : Char) (ms ds hs ns ss : List Char),
    cs = y₁ :: y₂ :: y₃ :: y₄ :: '-' ::
      (ms ++ '-' :: (ds ++ t :: (hs ++ ':' :: (ns ++ ':' :: ss)))) ∧
    (∀ c ∈ [y₁, y₂, y₃, y₄], 48 ≤ c.toNat ∧ c.toNat ≤ 57) ∧
    (t = 'T' ∨ t = 't') ∧
    MonthSeg ms ∧ DaySeg ds ∧ HourSeg hs ∧ MinuteSeg ns ∧ SecondSeg ss

/-- A string accepted by Python's `int()`: optional whitespace, optional
sign, one or more digits, optional whitespace. -/
def IntSliceShape (l : List Char) : Prop :=
  ∃ a sgn ds b, l = a ++ sgn ++ ds ++ b ∧
    (∀ c ∈ a, isPyWs c = true) ∧ (∀ c ∈ b, isPyWs c = true) ∧
    (sgn = [] ∨ sgn = ['+'] ∨ sgn = ['-']) ∧
    ds ≠ [] ∧ (∀ c ∈ ds, isAsciiDigit c = true)

/-- The lenient overall shape the code accepts: either the whole string
is in the lenient date-time grammar (length ≤ 19), or its first 19
characters are and the tail's `[1:3]` slice — and its `[3:5]` slice when
the tail has at least 5 characters — is `int()`-parseable. -/
def LenientShape (cs : List Char) : Prop :=
  if 19 < cs.length then
    Lenient19 (cs.take 19) ∧
    IntSliceShape (((cs.drop 19).drop 1).take 2) ∧
    (5 ≤ (cs.drop 19).length → IntSliceShape (((cs.drop 19).drop 3).take 2))
  else Lenient19 cs

example : parse_race_datetime "" = .ok none := by decide
example : parse_race_datetime "2026-03-01T10:00:00+0000" =
    .ok (some (instantOfFields 2026 3 1 10 0 0)) := by decide
example : (PyRes.ok (some "20260215T193000Z") : PyRes (Option String)) =
    (match parse_race_datetime "2026-02-15T14:30:00-0500" with
     | .ok (some t) => .ok (some (format_ics_datetime t))
     | .ok none => .ok none
     | .raised => .raised) := by decide
example : parse_race_datetime "0001-01-01T00:00:00+0100" = .raised := by decide
example : parse_race_datetime "2026-02-15T14:30:00?0500" =
    .ok (some (instantOfFields 2026 2 15 19 30 0)) := by decide
example : parse_race_datetime "2026-2-15T14:30:00" =
    .ok (some (instantOfFields 2026 2 15 14 30 0)) := by decide
example : parse_race_datetime "2026-02-30T10:00:00" = .ok none := by decide
example : parse_race_datetime "garbage" = .ok none := by decide

example : String.mk (md5HexChars []) = "d41d8cd98f00b204e9800998ecf8427e" := by decide

example : String.mk (md5HexChars (utf8Bytes "abc")) =
    "900150983cd24fb0d6963f7d28e17f72" := by decide

example : generate_uid (some 5123) "NASCAR Cup Series" =
    "778f0466ca7727b1@nascar-scraper" := by decide

example : escape_ics_text "Race, Inc.; Finals" = "Race\\, Inc.\\; Finals" := by decide

example :
    createEventCore daytonaRace "NASCAR Cup Series" sampleNow =
      .ok (some
        ["BEGIN:VEVENT",
         "UID:778f0466ca7727b1@nascar-scraper",
         "DTSTAMP:20260101T000000Z",
         "DTSTART:20260215T193000Z",
         "DTEND:20260215T233000Z",
         "SUMMARY:Daytona 500 (NASCAR Cup Series)",
         "LOCATION:Daytona International Speedway\\, FL",
         "DESCRIPTION:Series: NASCAR Cup Series\\nTrack: Daytona International Speedway",
         "END:VEVENT"]) := by decide

example :
    generate_ics_calendar [daytonaRace, daytonaRace] sampleNow =
      match create_ics_event daytonaRace "NASCAR Cup Series" sampleNow with
      | .ok ev => .ok (icsHeader ++ [ev] ++ ["END:VCALENDAR"], 1)
      | .raised => .raised := by decide

example :
    clean_string (PyVal.str "  Daytona  ") = "Daytona" ∧ clean_string PyVal.none = "" ∧
      clean_string (PyVal.int (-7)) = "-7" := by decide

/-! ## Theorems -/

/-- `clean_string` satisfies the per-field cleaning contract. -/
theorem clean_string_textualOK (v : PyVal) : TextualOK v (clean_string v) := by
  refine ⟨fun h => ?_, fun s h => ?_, fun n h => ?_⟩ <;> rw [h] <;> rfl

/-- **C8** (confirmed): the normalizer is total and, for every raw race
record, maps each missing-or-null textual source field to `""`, each
present textual value to its whitespace-stripped text, and passes the
numeric fields (`race_id`, `track_id`, `scheduled_laps`, `actual_laps`)
through unmodified, null included. -/
theorem extract_race_info_normalizes (raw : RawRace) :
    TextualOK raw.Race_Name (extract_race_info raw).race_name ∧
    TextualOK raw.Track_Name (extract_race_info raw).track_name ∧
    TextualOK raw.Race_State (extract_race_info raw).state ∧
    TextualOK raw.Race_Date (extract_race_info raw).date ∧
    TextualOK raw.Race_Date_Plain (extract_race_info raw).date_plain ∧
    TextualOK raw.Race_Start (extract_race_info raw).start_time ∧
    TextualOK raw.Qualifying_Date (extract_race_info raw).qualifying_date ∧
    TextualOK raw.Playoff_Round (extract_race_info raw).playoff_round ∧
    TextualOK raw.Race_TV (extract_race_info raw).tv_network ∧
    TextualOK raw.Race_Radio (extract_race_info raw).radio ∧
    TextualOK raw.Race_Live_Stream (extract_race_info raw).streaming ∧
    TextualOK raw.Race_In_Car (extract_race_info raw).in_car_camera ∧
    TextualOK raw.Race_Tickets (extract_race_info raw).tickets_url ∧
    TextualOK raw.Race_URL (extract_race_info raw).race_url ∧
    TextualOK raw.Previous_Winner_Name (extract_race_info raw).previous_winner ∧
    (extract_race_info raw).race_id = raw.Race_Id ∧
    (extract_race_info raw).track_id = raw.Track_Id ∧
    (extract_race_info raw).scheduled_laps = raw.Scheduled_Laps ∧
    (extract_race_info raw).actual_laps = raw.Actual_Laps :=
  ⟨clean_string_textualOK _, clean_string_textualOK _, clean_string_textualOK _,
   clean_string_textualOK _, clean_string_textualOK _, clean_string_textualOK _,
   clean_string_textualOK _, clean_string_textualOK _, clean_string_textualOK _,
   clean_string_textualOK _, clean_string_textualOK _, clean_string_textualOK _,
   clean_string_textualOK _, clean_string_textualOK _, clean_string_textualOK _,
   rfl, rfl, rfl, rfl⟩

/-- Witness for C8 at a concrete raw record: null race name → `""`,
padded track name → stripped, numeric fields and nulls pass through. -/
theorem extract_race_info_normalizes_witness :
    (extract_race_info rawPadded).race_name = "" ∧
    (extract_race_info rawPadded).track_name = "Daytona" ∧
    (extract_race_info rawPadded).race_id = PyVal.int 5123 ∧
    (extract_race_info rawPadded).scheduled_laps = PyVal.none := by
  obtain ⟨h1, h2, -, -, -, -, -, -, -, -, -, -, -, -, -, hid, -, hsl, -⟩ :=
    extract_race_info_normalizes rawPadded
  exact ⟨h1.1 rfl, ((h2.2.1 "  Daytona  " rfl).trans (by decide)), hid.trans rfl,
    hsl.trans rfl⟩

/-- `assocFind` after appending one binding. -/
theorem assocFind_append (tid k : PyVal) (v : TrackRec) (acc : List (PyVal × TrackRec)) :
    assocFind tid (acc ++ [(k, v)]) =
      match assocFind tid acc with
      | some w => some w
      | none => if k = tid then some v else none := by
  induction acc with
  | nil => simp [assocFind]
  | cons p rest ih =>
      obtain ⟨k', w⟩ := p
      by_cases h : k' = tid <;> simp [assocFind, h, ih]

/-- A key is present in the association list iff `assocFind` succeeds. -/
theorem assocFind_mem_keys (tid : PyVal) (acc : List (PyVal × TrackRec)) :
    tid ∈ acc.map Prod.fst ↔ ∃ v, assocFind tid acc = some v := by
  induction acc with
  | nil => simp [assocFind]
  | cons p rest ih =>
      obtain ⟨k', w⟩ := p
      by_cases h : k' = tid
      · subst h; simp [assocFind]
      · simp [assocFind, h, ih, Ne.symm h]

/-- What the track-collection loop stores under each key: the value
already present, else the track record of the first raw record in the
scanned list carrying that (truthy) key. -/
theorem addTracks_find (races : List RawRace) :
    ∀ (acc : List (PyVal × TrackRec)) (tid : PyVal),
      assocFind tid (addTracks races acc) =
        match assocFind tid acc with
        | some v => some v
        | none =>
            if pyTruthy tid then (firstWithTid tid races).map extract_track_info
            else none := by
  induction races with
  | nil =>
      intro acc tid
      simp only [addTracks, firstWithTid, Option.map_none']
      cases assocFind tid acc <;> simp
  | cons r rs ih =>
      intro acc tid
      simp only [addTracks]
      by_cases hg : pyTruthy r.Track_Id = true ∧ r.Track_Id ∉ acc.map Prod.fst
      · rw [if_pos hg, ih, assocFind_append]
        by_cases ht : r.Track_Id = tid
        · subst ht
          have hnone : assocFind r.Track_Id acc = none := by
            cases hfind : assocFind r.Track_Id acc with
            | none => rfl
            | some w => exact absurd ((assocFind_mem_keys _ _).mpr ⟨w, hfind⟩) hg.2
          simp [hnone, firstWithTid, hg.1]
        · cases hfind : assocFind tid acc with
          | some w => simp
          | none => simp [ht, firstWithTid, ht]
      · rw [if_neg hg, ih]
        by_cases ht : r.Track_Id = tid
        · subst ht
          rcases Decidable.not_and_iff_or_not.mp hg with hfal | hmem
          · have hfal' : pyTruthy r.Track_Id = false := by simpa using hfal
            cases hfind : assocFind r.Track_Id acc with
            | some w => simp
            | none => simp [firstWithTid, hfal']
          · obtain ⟨w, hw⟩ := (assocFind_mem_keys _ _).mp (Decidable.not_not.mp hmem)
            simp [hw]
        · cases hfind : assocFind tid acc with
          | some w => simp
          | none => simp [firstWithTid, ht]

/-- The loop never creates a duplicate key. -/
theorem addTracks_nodup (races : List RawRace) :
    ∀ acc : List (PyVal × TrackRec),
      (acc.map Prod.fst).Nodup → ((addTracks races acc).map Prod.fst).Nodup := by
  induction races with
  | nil => intro acc h; simpa [addTracks] using h
  | cons r rs ih =>
      intro acc h
      simp only [addTracks]
      by_cases hg : pyTruthy r.Track_Id = true ∧ r.Track_Id ∉ acc.map Prod.fst
      · rw [if_pos hg]
        refine ih _ ?_
        rw [List.map_append]
        simp only [List.map_cons, List.map_nil]
        rw [List.nodup_append]
        exact ⟨h, List.nodup_singleton _, by
          intro x hx hx1
          simp only [List.mem_singleton] at hx1
          exact hg.2 (hx1 ▸ hx)⟩
      · rw [if_neg hg]; exact ih acc h

/-- **C9** (amended): the resulting track collection has at most one
record per track identifier; for every truthy (non-null, non-zero,
non-empty) identifier the stored record is the one extracted from the
first-encountered raw record with that identifier, its fields frozen
there; records with a falsy identifier are never stored. -/
theorem track_dedup_first_wins (races : List RawRace) :
    ((collectTracks races).map Prod.fst).Nodup ∧
    (∀ tid, pyTruthy tid = true →
      assocFind tid (collectTracks races) =
        (firstWithTid tid races).map extract_track_info) ∧
    (∀ tid, pyTruthy tid = false →
      assocFind tid (collectTracks races) = none) := by
  refine ⟨addTracks_nodup races [] (by simp), fun tid ht => ?_, fun tid ht => ?_⟩
  · rw [collectTracks, addTracks_find]
    simp [assocFind, ht]
  · rw [collectTracks, addTracks_find]
    simp [assocFind, ht]

/-- Witness for C9 at a concrete list: two records share `Track_Id = 5`
with different names; the first one's extraction is stored, keys stay
duplicate-free. -/
theorem track_dedup_first_wins_witness :
    assocFind (PyVal.int 5) (collectTracks [rawTrack5a, rawTrack5b]) =
      some (extract_track_info rawTrack5a) ∧
    ((collectTracks [rawTrack5a, rawTrack5b]).map Prod.fst).Nodup := by
  refine ⟨?_, (track_dedup_first_wins _).1⟩
  exact ((track_dedup_first_wins [rawTrack5a, rawTrack5b]).2.1
    (PyVal.int 5) (by decide)).trans (by decide)

/-- Counterexample to **C9** as stated: two raw records share the track
identifier `0`; the code's truthiness guard (`if track_id and ...`) drops
both, so the track record of the first-encountered one is *not* retained. -/
theorem track_dedup_zero_id_counterexample :
    rawTrack0a.Track_Id = rawTrack0b.Track_Id ∧
    collectTracks [rawTrack0a, rawTrack0b] = [] ∧
    assocFind (PyVal.int 0) (collectTracks [rawTrack0a, rawTrack0b]) ≠
      some (extract_track_info rawTrack0a) := by decide

/-- `leBytes` produces exactly `k` bytes. -/
theorem leBytes_length (k : Nat) : ∀ n, (leBytes k n).length = k := by
  induction k with
  | zero => intro n; rfl
  | succ k ih => intro n; simp [leBytes, ih]

/-- Every byte produced by `leBytes` is below 256. -/
theorem leBytes_lt (k : Nat) : ∀ n, ∀ b ∈ leBytes k n, b < 256 := by
  induction k with
  | zero => intro n b hb; simp [leBytes] at hb
  | succ k ih =>
      intro n b hb
      simp only [leBytes, List.mem_cons] at hb
      rcases hb with h | h
      · subst h; exact Nat.mod_lt _ (by omega)
      · exact ih _ b h

/-- The MD5 digest is always 16 bytes. -/
theorem md5_length (msg : List Nat) : (md5 msg).length = 16 := by
  simp [md5, leBytes_length]

/-- Every MD5 digest byte is below 256. -/
theorem md5_bytes_lt (msg : List Nat) : ∀ b ∈ md5 msg, b < 256 := by
  intro b hb
  simp only [md5, List.mem_append] at hb
  rcases hb with ((h | h) | h) | h <;> exact leBytes_lt 4 _ b h

/-- The hex digest of a byte list has twice its length. -/
theorem hexOfBytes_length (l : List Nat) : ((l.map byteToHex).flatten).length = 2 * l.length := by
  induction l with
  | nil => rfl
  | cons b rest ih => simp [byteToHex, ih]; omega

/-- The MD5 hex digest is always 32 characters. -/
theorem md5HexChars_length (msg : List Nat) : (md5HexChars msg).length = 32 := by
  rw [md5HexChars, hexOfBytes_length, md5_length]

/-- `digitCharHex` of a value below 16 is a lower-case hex digit. -/
theorem digitCharHex_mem (n : Nat) (h : n < 16) :
    digitCharHex n ∈ ("0123456789abcdef").data := by
  interval_cases n <;> decide

/-- Every character of an MD5 hex digest is a lower-case hex digit. -/
theorem md5HexChars_mem (msg : List Nat) :
    ∀ c ∈ md5HexChars msg, c ∈ ("0123456789abcdef").data := by
  intro c hc
  simp only [md5HexChars, List.mem_flatten, List.mem_map] at hc
  obtain ⟨l, ⟨b, hb, rfl⟩, hcl⟩ := hc
  have hblt : b < 256 := md5_bytes_lt msg b hb
  simp only [byteToHex, List.mem_cons, List.not_mem_nil, or_false] at hcl
  rcases hcl with rfl | rfl
  · exact digitCharHex_mem _ (by omega)
  · exact digitCharHex_mem _ (Nat.mod_lt _ (by omega))

/-- **C6** (confirmed): `generate_uid` is a pure, deterministic function
of the race identifier and series name — equal inputs give the identical
string — and its value is the 16-character lower-case-hex prefix of the
MD5 digest of `f"{race_id}-{series}"` suffixed with the fixed namespace
tag `"@nascar-scraper"`. -/
theorem generate_uid_deterministic (race_id : Option Int) (series : String) :
    generate_uid race_id series = generate_uid race_id series ∧
    ∃ hex : List Char,
      generate_uid race_id series = String.mk hex ++ "@nascar-scraper" ∧
      hex = (md5HexChars (utf8Bytes (uidKeyString race_id series))).take 16 ∧
      hex.length = 16 ∧
      ∀ c ∈ hex, c ∈ ("0123456789abcdef").data := by
  refine ⟨rfl, (md5HexChars (utf8Bytes (uidKeyString race_id series))).take 16,
    rfl, rfl, ?_, ?_⟩
  · rw [List.length_take, md5HexChars_length]; rfl
  · intro c hc
    exact md5HexChars_mem _ c (List.mem_of_mem_take hc)

/-- **C4** (code-bug evaluation): the empty string yields the sentinel,
but the well-shaped input `"0001-01-01T00:00:00+0100"` makes
`parse_race_datetime` raise an uncaught `OverflowError` (the offset
subtraction leaves the `datetime` range and `OverflowError` is not in the
`except (ValueError, IndexError)` clause), contradicting totality. -/
theorem parse_race_datetime_overflow_raises :
    parse_race_datetime "" = .ok none ∧
    strictShape "0001-01-01T00:00:00+0100" = true ∧
    parse_race_datetime "0001-01-01T00:00:00+0100" = .raised := by decide

/-- The lines of a successfully produced event, under the hypotheses that
the date parses and the four-hour end time stays in range. -/
theorem createEventCore_ok (race : RaceRec) (series_name : String) (now dt : Int)
    (hp : parseRaceChars race.date.data = .ok (some dt))
    (ho : dt + 14400 ≤ maxInstant) :
    createEventCore race series_name now = .ok (some
      (["BEGIN:VEVENT",
        "UID:" ++ generate_uid race.race_id series_name,
        "DTSTAMP:" ++ format_ics_datetime now,
        "DTSTART:" ++ format_ics_datetime dt,
        "DTEND:" ++ format_ics_datetime (dt + 14400),
        "SUMMARY:" ++ escape_ics_text (race.race_name ++ " (" ++ series_name ++ ")"),
        "LOCATION:" ++ escape_ics_text (eventLocation race),
        "DESCRIPTION:" ++ joinSep "\\n" (descParts race series_name)]
       ++ (if race.race_url ≠ "" then ["URL:" ++ race.race_url] else [])
       ++ ["END:VEVENT"])) := by
  unfold createEventCore
  rw [hp]
  dsimp only
  rw [if_neg (not_lt.mpr ho)]

/-- **C2** (amended): for every record whose event is emitted, the
SUMMARY text and the LOCATION text are escaped with `escape_ics_text`
(backslash first, then `;`, `,`, newline), but the DESCRIPTION text is
the raw join of the unescaped labeled parts on the two-character
separator `\n`. -/
theorem event_text_escaping (race : RaceRec) (series_name : String) (now dt : Int)
    (hp : parseRaceChars race.date.data = .ok (some dt))
    (ho : dt + 14400 ≤ maxInstant) :
    ∃ ls, createEventCore race series_name now = .ok (some ls) ∧
      ls[5]? = some ("SUMMARY:" ++
        escape_ics_text (race.race_name ++ " (" ++ series_name ++ ")")) ∧
      ls[6]? = some ("LOCATION:" ++ escape_ics_text (eventLocation race)) ∧
      ls[7]? = some ("DESCRIPTION:" ++ joinSep "\\n" (descParts race series_name)) := by
  refine ⟨_, createEventCore_ok race series_name now dt hp ho, ?_, ?_, ?_⟩ <;>
    by_cases hu : race.race_url = "" <;> simp [hu]

/-- Witness for C2's amended claim at the Daytona sample record. -/
theorem event_text_escaping_witness :
    ∃ ls, createEventCore daytonaRace "NASCAR Cup Series" sampleNow = .ok (some ls) ∧
      ls[5]? = some "SUMMARY:Daytona 500 (NASCAR Cup Series)" ∧
      ls[6]? = some "LOCATION:Daytona International Speedway\\, FL" ∧
      ls[7]? = some
        "DESCRIPTION:Series: NASCAR Cup Series\\nTrack: Daytona International Speedway" := by
  obtain ⟨ls, h0, h5, h6, h7⟩ := event_text_escaping daytonaRace "NASCAR Cup Series"
    sampleNow (instantOfFields 2026 2 15 19 30 0) (by decide) (by decide)
  exact ⟨ls, h0, h5.trans (by decide), h6.trans (by decide), h7.trans (by decide)⟩

/-- Counterexample to **C2** as stated: the DESCRIPTION text of the
emitted event for a track name containing a comma carries that comma
bare (unescaped), unlike what `escape_ics_text` would produce. -/
theorem description_comma_unescaped_counterexample :
    (match createEventCore c2Race "S" sampleNow with
      | .ok (some ls) => ls[7]?
      | _ => none) = some "DESCRIPTION:Series: S\\nTrack: A,B" ∧
    noBareComma ("DESCRIPTION:Series: S\\nTrack: A,B").data = false ∧
    noBareComma (escape_ics_text "Series: S\nTrack: A,B").data = true := by decide

/-- **C7** (amended): for every record whose date parses to `dt` with
`dt + 4h` still representable, the emitted event has
`DTSTART = dt` and `DTEND = dt + 4` hours, unconditionally; when
`dt + 4h` leaves the `datetime` range the call raises instead. -/
theorem event_end_four_hours (race : RaceRec) (series_name : String) (now dt : Int)
    (hp : parseRaceChars race.date.data = .ok (some dt))
    (ho : dt + 14400 ≤ maxInstant) :
    ∃ ls, createEventCore race series_name now = .ok (some ls) ∧
      ls[3]? = some ("DTSTART:" ++ format_ics_datetime dt) ∧
      ls[4]? = some ("DTEND:" ++ format_ics_datetime (dt + 14400)) := by
  refine ⟨_, createEventCore_ok race series_name now dt hp ho, ?_, ?_⟩ <;>
    by_cases hu : race.race_url = "" <;> simp [hu]

/-- Witness for C7's amended claim: the Daytona sample record gets
`DTSTART:20260215T193000Z` and `DTEND:20260215T233000Z`. -/
theorem event_end_four_hours_witness :
    ∃ ls, createEventCore daytonaRace "NASCAR Cup Series" sampleNow = .ok (some ls) ∧
      ls[3]? = some "DTSTART:20260215T193000Z" ∧
      ls[4]? = some "DTEND:20260215T233000Z" := by
  obtain ⟨ls, h0, h3, h4⟩ := event_end_four_hours daytonaRace "NASCAR Cup Series"
    sampleNow (instantOfFields 2026 2 15 19 30 0) (by decide) (by decide)
  exact ⟨ls, h0, h3.trans (by decide), h4.trans (by decide)⟩

/-- Counterexample to **C7** as stated: the date of `race9999` parses
successfully (to 9999-12-31T21:00:00), yet no event with an end time is
produced — `dt + timedelta(hours=4)` raises an uncaught
`OverflowError`. -/
theorem event_end_overflow_counterexample :
    parseRaceChars race9999.date.data =
      .ok (some (instantOfFields 9999 12 31 21 0 0)) ∧
    createEventCore race9999 "S" sampleNow = .raised ∧
    create_ics_event race9999 "S" sampleNow = .raised := by decide

/-- **C10** (confirmed): a record whose date fails to parse (sentinel) is
a complete no-op for `generate_ics_calendar`'s loop: the step leaves the
state — in particular the `added_events` key set and the count —
unchanged, so the whole run equals the run with that record removed, and
a later record with the same key but a parseable date is emitted and
counted exactly as if the failing record had not been there. -/
theorem unparseable_skip_no_effect (now : Int) (st : GenState)
    (pre post : List RaceRec) (r : RaceRec)
    (h : parseRaceChars r.date.data = .ok none) :
    genStep now st r = .ok st ∧
    genFold now st (pre ++ r :: post) = genFold now st (pre ++ post) := by
  have hcreate : create_ics_event r r.series now = .ok "" := by
    unfold create_ics_event createEventCore
    rw [h]
  have hstep : ∀ st' : GenState, genStep now st' r = .ok st' := by
    intro st'
    unfold genStep
    by_cases hk : eventKey r ∈ st'.seen
    · rw [if_pos hk]
    · rw [if_neg hk, hcreate]
      rfl
  refine ⟨hstep st, ?_⟩
  induction pre generalizing st with
  | nil => simp [genFold, hstep st]
  | cons p ps ih =>
      simp only [List.cons_append, genFold]
      cases genStep now st p <;> simp [ih]

/-- Witness for C10: an empty-date record before the Daytona record
changes nothing; the Daytona record is still emitted and counted. -/
theorem unparseable_skip_no_effect_witness :
    genStep sampleNow ⟨[], [], 0⟩ emptyDateRace = .ok ⟨[], [], 0⟩ ∧
    genFold sampleNow ⟨[], [], 0⟩ [emptyDateRace, daytonaRace] =
      genFold sampleNow ⟨[], [], 0⟩ [daytonaRace] := by
  exact unparseable_skip_no_effect sampleNow ⟨[], [], 0⟩ [] [daytonaRace]
    emptyDateRace (by decide)

/-- Joining the lines of a VEVENT never yields the empty string (the
`if event:` truthiness test in `generate_ics_calendar` is equivalent to
"an event was produced"). -/
theorem eventJoin_ne_empty (l : List String) :
    joinSep "\n" ("BEGIN:VEVENT" :: l) ≠ "" := by
  cases l with
  | nil => decide
  | cons b bs =>
      simp only [joinSep]
      intro h
      have hlen := congrArg String.length h
      rw [String.length_append, String.length_append] at hlen
      have h1 : ("BEGIN:VEVENT" : String).length = 12 := rfl
      have h2 : ("" : String).length = 0 := rfl
      omega

/-- Classification of `create_ics_event`'s body: skip (unparseable date),
raise, or a produced event whose first line is `BEGIN:VEVENT`. -/
theorem createEventCore_classify (race : RaceRec) (s : String) (now : Int) :
    (dateParses race = false ∧ createEventCore race s now = .ok none) ∨
    (dateParses race = true ∧ createEventCore race s now = .raised) ∨
    (dateParses race = true ∧
      ∃ tail, createEventCore race s now = .ok (some ("BEGIN:VEVENT" :: tail))) ∨
    (dateParses race = false ∧ createEventCore race s now = .raised) := by
  unfold createEventCore dateParses
  cases hp : parseRaceChars race.date.data with
  | raised => right; right; right; exact ⟨rfl, rfl⟩
  | ok o =>
      cases o with
      | none => left; exact ⟨rfl, rfl⟩
      | some dt =>
          by_cases hlt : maxInstant < dt + 14400
          · right; left; exact ⟨rfl, by simp [hlt]⟩
          · right; right; left
            exact ⟨rfl, _, by dsimp only; rw [if_neg hlt, List.cons_append, List.cons_append]⟩

/-- A loop iteration on an already-seen key changes nothing. -/
theorem genStep_mem (now : Int) (st : GenState) (race : RaceRec)
    (hk : eventKey race ∈ st.seen) : genStep now st race = .ok st := by
  unfold genStep
  rw [if_pos hk]

/-- A loop iteration on a skipped (unparseable-date) record changes
nothing. -/
theorem genStep_skip (now : Int) (st : GenState) (race : RaceRec)
    (hk : eventKey race ∉ st.seen)
    (hc : createEventCore race race.series now = .ok none) :
    genStep now st race = .ok st := by
  have hcr : create_ics_event race race.series now = .ok "" := by
    unfold create_ics_event
    rw [hc]
  unfold genStep
  rw [if_neg hk, hcr]
  rfl

/-- A loop iteration that emits: the event text is appended, the key is
recorded, the count increments. -/
theorem genStep_emit (now : Int) (st : GenState) (race : RaceRec) (tail : List String)
    (hk : eventKey race ∉ st.seen)
    (hc : createEventCore race race.series now = .ok (some ("BEGIN:VEVENT" :: tail))) :
    genStep now st race = .ok
      ⟨st.lines ++ [eventText race now], st.seen ++ [eventKey race], st.count + 1⟩ := by
  have hcr : create_ics_event race race.series now =
      .ok (joinSep "\n" ("BEGIN:VEVENT" :: tail)) := by
    unfold create_ics_event
    rw [hc]
  have hev : eventText race now = joinSep "\n" ("BEGIN:VEVENT" :: tail) := by
    unfold eventText
    rw [hcr]
  unfold genStep
  rw [if_neg hk, hcr]
  dsimp only
  rw [if_neg (eventJoin_ne_empty tail), hev]

/-- Unfolding one loop iteration whose step succeeded. -/
theorem genFold_cons_ok (now : Int) (st : GenState) (r : RaceRec) (rs : List RaceRec)
    (st' : GenState) (h : genStep now st r = .ok st') :
    genFold now st (r :: rs) = genFold now st' rs := by
  simp [genFold, h]

/-- The loop of `generate_ics_calendar`, run from any state: when no
record raises, it appends exactly the events of the first-occurrence
selection (relative to the keys already seen) and counts them. -/
theorem genFold_ok (now : Int) : ∀ (races : List RaceRec) (st : GenState),
    (∀ r ∈ races, createEventCore r r.series now ≠ .raised) →
    genFold now st races = .ok
      { lines := st.lines ++
          (firstPerKey (races.filter dateParses) st.seen).map (fun r => eventText r now),
        seen := st.seen ++ (firstPerKey (races.filter dateParses) st.seen).map eventKey,
        count := st.count + (firstPerKey (races.filter dateParses) st.seen).length } := by
  intro races
  induction races with
  | nil =>
      intro st _
      simp [genFold, firstPerKey]
  | cons r rs ih =>
      intro st hnr
      have hr := hnr r (List.mem_cons_self r rs)
      have hrs : ∀ x ∈ rs, createEventCore x x.series now ≠ .raised :=
        fun x hx => hnr x (List.mem_cons_of_mem r hx)
      rcases createEventCore_classify r r.series now with
        ⟨hd, hc⟩ | ⟨-, hc⟩ | ⟨hd, tail, hc⟩ | ⟨-, hc⟩
      · by_cases hk : eventKey r ∈ st.seen
        · rw [genFold_cons_ok now st r rs st (genStep_mem now st r hk),
            List.filter_cons_of_neg (by simp [hd])]
          exact ih st hrs
        · rw [genFold_cons_ok now st r rs st (genStep_skip now st r hk hc),
            List.filter_cons_of_neg (by simp [hd])]
          exact ih st hrs
      · exact absurd hc hr
      · by_cases hk : eventKey r ∈ st.seen
        · rw [genFold_cons_ok now st r rs st (genStep_mem now st r hk),
            List.filter_cons_of_pos hd, ih st hrs]
          simp only [firstPerKey, if_pos hk]
        · rw [genFold_cons_ok now st r rs _ (genStep_emit now st r tail hk hc),
            List.filter_cons_of_pos hd,
            ih ⟨st.lines ++ [eventText r now], st.seen ++ [eventKey r], st.count + 1⟩ hrs]
          simp only [firstPerKey, if_neg hk, PyRes.ok.injEq, GenState.mk.injEq,
            List.map_cons, List.length_cons]
          refine ⟨by simp, by simp, by omega⟩
      · exact absurd hc hr

/-- The selection has duplicate-free keys, none of them among the
already-seen ones. -/
theorem firstPerKey_nodup : ∀ (l : List RaceRec) (ks : List String),
    ((firstPerKey l ks).map eventKey).Nodup ∧
    ∀ r ∈ firstPerKey l ks, eventKey r ∉ ks := by
  intro l
  induction l with
  | nil => intro ks; simp [firstPerKey]
  | cons r rs ih =>
      intro ks
      by_cases hk : eventKey r ∈ ks
      · simp only [firstPerKey, if_pos hk]
        exact ih ks
      · simp only [firstPerKey, if_neg hk, List.map_cons, List.nodup_cons]
        refine ⟨⟨?_, (ih (ks ++ [eventKey r])).1⟩, ?_⟩
        · intro hmem
          obtain ⟨x, hx, hxk⟩ := List.mem_map.mp hmem
          exact (ih (ks ++ [eventKey r])).2 x hx
            (by rw [hxk]; simp)
        · intro x hx
          rcases List.mem_cons.mp hx with rfl | hx'
          · exact hk
          · intro hxk
            exact (ih (ks ++ [eventKey r])).2 x hx' (by simp [hxk])

/-- A key appears in the selection iff it appears among the input records
and is not already seen. -/
theorem firstPerKey_mem : ∀ (l : List RaceRec) (ks : List String) (k : String),
    k ∈ (firstPerKey l ks).map eventKey ↔ (k ∈ l.map eventKey ∧ k ∉ ks) := by
  intro l
  induction l with
  | nil => intro ks k; simp [firstPerKey]
  | cons r rs ih =>
      intro ks k
      by_cases hk : eventKey r ∈ ks
      · rw [firstPerKey, if_pos hk]
        by_cases hke : k = eventKey r
        · subst hke
          simp [ih, hk]
        · simp [ih, hke, Ne.symm hke]
      · rw [firstPerKey, if_neg hk]
        by_cases hke : k = eventKey r
        · subst hke
          simp [hk]
        · simp only [List.map_cons, List.mem_cons, ih, List.mem_append,
            List.mem_singleton]
          constructor
          · rintro (h | ⟨h1, h2⟩)
            · exact absurd h hke
            · exact ⟨Or.inr h1, fun hks => h2 (Or.inl hks)⟩
          · rintro ⟨h1 | h1, h2⟩
            · exact absurd h1 hke
            · refine Or.inr ⟨h1, fun hor => ?_⟩
              rcases hor with hks | hkr | hkr0
              · exact h2 hks
              · exact hke hkr
              · exact (List.not_mem_nil k) hkr0

/-- **C5** (amended): when no record overflows the `datetime` range,
`generate_ics_calendar` emits exactly one VEVENT per unique
(race identifier, series) key among the records with parseable dates —
the first such record per key, later repeats skipped — and returns the
number of VEVENTs actually emitted (records skipped for unparseable
dates or duplicate keys are not counted). -/
theorem generate_one_event_per_key (races : List RaceRec) (now : Int)
    (hnr : ∀ r ∈ races, createEventCore r r.series now ≠ .raised) :
    ∃ evs count,
      generate_ics_calendar races now =
        .ok (icsHeader ++ evs ++ ["END:VCALENDAR"], count) ∧
      count = evs.length ∧
      evs = (selectedRaces races).map (fun r => eventText r now) ∧
      ((selectedRaces races).map eventKey).Nodup ∧
      (∀ k, k ∈ (selectedRaces races).map eventKey ↔
        k ∈ (races.filter dateParses).map eventKey) := by
  refine ⟨(selectedRaces races).map (fun r => eventText r now),
    (selectedRaces races).length, ?_, by simp, rfl,
    (firstPerKey_nodup _ []).1, fun k => ?_⟩
  · unfold generate_ics_calendar
    rw [genFold_ok now races ⟨[], [], 0⟩ hnr]
    simp [selectedRaces]
  · rw [selectedRaces, firstPerKey_mem]
    simp

/-- Witness for C5's amended claim: two records with the Daytona key but
different other fields yield exactly one emitted VEVENT and the returned
count 1. -/
theorem generate_one_event_per_key_witness :
    generate_ics_calendar [daytonaRace, daytonaRace2] sampleNow =
      .ok (icsHeader ++ [eventText daytonaRace sampleNow] ++ ["END:VCALENDAR"], 1) := by
  obtain ⟨evs, count, hgen, hcount, hevs, -, -⟩ :=
    generate_one_event_per_key [daytonaRace, daytonaRace2] sampleNow (by decide)
  have hsel : selectedRaces [daytonaRace, daytonaRace2] = [daytonaRace] := by decide
  rw [hsel] at hevs
  subst hevs
  simp only [List.length_map, List.length_cons, List.length_nil] at hcount
  subst hcount
  exact hgen

/-- Counterexample to **C5** as stated: a single record with the
parseable date 9999-12-31T21:00:00 makes `generate_ics_calendar` raise
(uncaught `OverflowError` in `create_ics_event`) instead of returning an
event count. -/
theorem generate_overflow_counterexample :
    dateParses race9999 = true ∧
    generate_ics_calendar [race9999] sampleNow = .raised := by decide

/-! ### The date-parsing round trip (C1) -/

/-- The code point of a rendered digit. -/
theorem digitChar_toNat (k : Nat) (h : k ≤ 9) : (digitChar k).toNat = 48 + k := by
  interval_cases k <;> rfl

/-- `chIn` unfolded to arithmetic. -/
theorem chIn_iff (lo hi : Nat) (c : Char) :
    chIn lo hi c = true ↔ (lo ≤ c.toNat ∧ c.toNat ≤ hi) := by
  simp [chIn]

/-- `chIn` refuted by arithmetic. -/
theorem chIn_false_iff (lo hi : Nat) (c : Char) :
    chIn lo hi c = false ↔ (c.toNat < lo ∨ hi < c.toNat) := by
  simp [chIn]
  omega

/-- Rendered digits are ASCII digits. -/
theorem isAsciiDigit_digitChar (k : Nat) (h : k ≤ 9) :
    isAsciiDigit (digitChar k) = true := by
  simp [isAsciiDigit, digitChar_toNat k h]
  omega

/-- `digitVal` inverts `digitChar` on digits. -/
theorem digitVal_digitChar (k : Nat) (h : k ≤ 9) : digitVal (digitChar k) = k := by
  simp [digitVal, digitChar_toNat k h]

/-- `pad2` as an explicit two-character list. -/
theorem pad2_eq (n : Nat) : pad2 n = digitChar (n / 10) :: digitChar (n % 10) :: [] := rfl

/-- A two-character field alternative accepts a padded two-digit number
whose digits pass its character classes. -/
theorem twoDigit_pad2 (p q : Char → Bool) (n : Nat) (hn : n ≤ 99)
    (hp : p (digitChar (n / 10)) = true) (hq : q (digitChar (n % 10)) = true)
    (rest : List Char) :
    twoDigit p q (pad2 n ++ rest) = some (n, rest) := by
  rw [pad2_eq]
  simp only [List.cons_append, List.nil_append, twoDigit, hp, hq, Bool.and_self]
  rw [digitVal_digitChar _ (by omega), digitVal_digitChar _ (by omega)]
  simp only [if_true]
  exact congrArg some (by rw [Prod.mk.injEq]; exact ⟨by omega, rfl⟩)

/-- A two-character alternative whose first character class fails. -/
theorem twoDigit_fail₁ (p q : Char → Bool) (c₁ c₂ : Char) (rest : List Char)
    (hp : p c₁ = false) : twoDigit p q (c₁ :: c₂ :: rest) = none := by
  simp [twoDigit, hp]

/-- Committing the first alternative when it and the continuation
succeed. -/
theorem tryAlts_cons_some {α : Type} (a : Alt) (as : List Alt) (cs : List Char)
    (n : Nat) (cs' : List Char) (k : Nat → List Char → Option α) (v : α)
    (ha : a cs = some (n, cs')) (hk : k n cs' = some v) :
    tryAlts (a :: as) cs k = some v := by
  simp [tryAlts, ha, hk]

/-- Skipping a failing alternative. -/
theorem tryAlts_cons_none {α : Type} (a : Alt) (as : List Alt) (cs : List Char)
    (k : Nat → List Char → Option α) (ha : a cs = none) :
    tryAlts (a :: as) cs k = tryAlts as cs k := by
  simp [tryAlts, ha]

/-- `%m` accepts a padded month 01..12, yielding its value. -/
theorem month_pad2 {α : Type} (mo : Nat) (h1 : 1 ≤ mo) (h2 : mo ≤ 12)
    (rest : List Char) (k : Nat → List Char → Option α) (v : α)
    (hk : k mo rest = some v) :
    tryAlts monthAlts (pad2 mo ++ rest) k = some v := by
  rcases Nat.lt_or_ge mo 10 with hlt | hge
  · have e0 : mo / 10 = 0 := by omega
    have hfail : twoDigit (chIn 49 49) (chIn 48 50) (pad2 mo ++ rest) = none := by
      rw [pad2_eq]
      exact twoDigit_fail₁ _ _ _ _ _
        ((chIn_false_iff _ _ _).mpr (by rw [digitChar_toNat _ (by omega)]; omega))
    have hsucc : twoDigit (chIn 48 48) (chIn 49 57) (pad2 mo ++ rest) = some (mo, rest) :=
      twoDigit_pad2 _ _ mo (by omega)
        ((chIn_iff _ _ _).mpr (by rw [digitChar_toNat _ (by omega)]; omega))
        ((chIn_iff _ _ _).mpr (by rw [digitChar_toNat _ (by omega)]; omega)) rest
    rw [monthAlts, tryAlts_cons_none _ _ _ _ hfail,
      tryAlts_cons_some _ _ _ _ _ _ _ hsucc hk]
  · have hsucc : twoDigit (chIn 49 49) (chIn 48 50) (pad2 mo ++ rest) = some (mo, rest) :=
      twoDigit_pad2 _ _ mo (by omega)
        ((chIn_iff _ _ _).mpr (by rw [digitChar_toNat _ (by omega)]; omega))
        ((chIn_iff _ _ _).mpr (by rw [digitChar_toNat _ (by omega)]; omega)) rest
    rw [monthAlts, tryAlts_cons_some _ _ _ _ _ _ _ hsucc hk]

/-- `%d` accepts a padded day 01..31, yielding its value. -/
theorem day_pad2 {α : Type} (d : Nat) (h1 : 1 ≤ d) (h2 : d ≤ 31)
    (rest : List Char) (k : Nat → List Char → Option α) (v : α)
    (hk : k d rest = some v) :
    tryAlts dayAlts (pad2 d ++ rest) k = some v := by
  rcases Nat.lt_or_ge d 10 with hlt | hge
  · have hf1 : twoDigit (chIn 51 51) (chIn 48 49) (pad2 d ++ rest) = none := by
      rw [pad2_eq]
      exact twoDigit_fail₁ _ _ _ _ _
        ((chIn_false_iff _ _ _).mpr (by rw [digitChar_toNat _ (by omega)]; omega))
    have hf2 : twoDigit (chIn 49 50) (chIn 48 57) (pad2 d ++ rest) = none := by
      rw [pad2_eq]
      exact twoDigit_fail₁ _ _ _ _ _
        ((chIn_false_iff _ _ _).mpr (by rw [digitChar_toNat _ (by omega)]; omega))
    have hsucc : twoDigit (chIn 48 48) (chIn 49 57) (pad2 d ++ rest) = some (d, rest) :=
      twoDigit_pad2 _ _ d (by omega)
        ((chIn_iff _ _ _).mpr (by rw [digitChar_toNat _ (by omega)]; omega))
        ((chIn_iff _ _ _).mpr (by rw [digitChar_toNat _ (by omega)]; omega)) rest
    rw [dayAlts, tryAlts_cons_none _ _ _ _ hf1, tryAlts_cons_none _ _ _ _ hf2,
      tryAlts_cons_some _ _ _ _ _ _ _ hsucc hk]
  · rcases Nat.lt_or_ge d 30 with hlt30 | hge30
    · have hf1 : twoDigit (chIn 51 51) (chIn 48 49) (pad2 d ++ rest) = none := by
        rw [pad2_eq]
        exact twoDigit_fail₁ _ _ _ _ _
          ((chIn_false_iff _ _ _).mpr (by rw [digitChar_toNat _ (by omega)]; omega))
      have hsucc : twoDigit (chIn 49 50) (chIn 48 57) (pad2 d ++ rest) = some (d, rest) :=
        twoDigit_pad2 _ _ d (by omega)
          ((chIn_iff _ _ _).mpr (by rw [digitChar_toNat _ (by omega)]; omega))
          ((chIn_iff _ _ _).mpr (by rw [digitChar_toNat _ (by omega)]; omega)) rest
      rw [dayAlts, tryAlts_cons_none _ _ _ _ hf1,
        tryAlts_cons_some _ _ _ _ _ _ _ hsucc hk]
    · have hsucc : twoDigit (chIn 51 51) (chIn 48 49) (pad2 d ++ rest) = some (d, rest) :=
        twoDigit_pad2 _ _ d (by omega)
          ((chIn_iff _ _ _).mpr (by rw [digitChar_toNat _ (by omega)]; omega))
          ((chIn_iff _ _ _).mpr (by rw [digitChar_toNat _ (by omega)]; omega)) rest
      rw [dayAlts, tryAlts_cons_some _ _ _ _ _ _ _ hsucc hk]

/-- `%H` accepts a padded hour 00..23, yielding its value. -/
theorem hour_pad2 {α : Type} (h : Nat) (h2 : h ≤ 23)
    (rest : List Char) (k : Nat → List Char → Option α) (v : α)
    (hk : k h rest = some v) :
    tryAlts hourAlts (pad2 h ++ rest) k = some v := by
  rcases Nat.lt_or_ge h 20 with hlt | hge
  · have hf1 : twoDigit (chIn 50 50) (chIn 48 51) (pad2 h ++ rest) = none := by
      rw [pad2_eq]
      exact twoDigit_fail₁ _ _ _ _ _
        ((chIn_false_iff _ _ _).mpr (by rw [digitChar_toNat _ (by omega)]; omega))
    have hsucc : twoDigit (chIn 48 49) (chIn 48 57) (pad2 h ++ rest) = some (h, rest) :=
      twoDigit_pad2 _ _ h (by omega)
        ((chIn_iff _ _ _).mpr (by rw [digitChar_toNat _ (by omega)]; omega))
        ((chIn_iff _ _ _).mpr (by rw [digitChar_toNat _ (by omega)]; omega)) rest
    rw [hourAlts, tryAlts_cons_none _ _ _ _ hf1,
      tryAlts_cons_some _ _ _ _ _ _ _ hsucc hk]
  · have hsucc : twoDigit (chIn 50 50) (chIn 48 51) (pad2 h ++ rest) = some (h, rest) :=
      twoDigit_pad2 _ _ h (by omega)
        ((chIn_iff _ _ _).mpr (by rw [digitChar_toNat _ (by omega)]; omega))
        ((chIn_iff _ _ _).mpr (by rw [digitChar_toNat _ (by omega)]; omega)) rest
    rw [hourAlts, tryAlts_cons_some _ _ _ _ _ _ _ hsucc hk]

/-- `%M` accepts a padded minute 00..59, yielding its value. -/
theorem minute_pad2 {α : Type} (mi : Nat) (h2 : mi ≤ 59)
    (rest : List Char) (k : Nat → List Char → Option α) (v : α)
    (hk : k mi rest = some v) :
    tryAlts minuteAlts (pad2 mi ++ rest) k = some v := by
  have hsucc : twoDigit (chIn 48 53) (chIn 48 57) (pad2 mi ++ rest) = some (mi, rest) :=
    twoDigit_pad2 _ _ mi (by omega)
      ((chIn_iff _ _ _).mpr (by rw [digitChar_toNat _ (by omega)]; omega))
      ((chIn_iff _ _ _).mpr (by rw [digitChar_toNat _ (by omega)]; omega)) rest
  rw [minuteAlts, tryAlts_cons_some _ _ _ _ _ _ _ hsucc hk]

/-- `%S` accepts a padded second 00..59, yielding its value. -/
theorem second_pad2 {α : Type} (s : Nat) (h2 : s ≤ 59)
    (rest : List Char) (k : Nat → List Char → Option α) (v : α)
    (hk : k s rest = some v) :
    tryAlts secondAlts (pad2 s ++ rest) k = some v := by
  have hf1 : twoDigit (chIn 54 54) (chIn 48 49) (pad2 s ++ rest) = none := by
    rw [pad2_eq]
    exact twoDigit_fail₁ _ _ _ _ _
      ((chIn_false_iff _ _ _).mpr (by rw [digitChar_toNat _ (by omega)]; omega))
  have hsucc : twoDigit (chIn 48 53) (chIn 48 57) (pad2 s ++ rest) = some (s, rest) :=
    twoDigit_pad2 _ _ s (by omega)
      ((chIn_iff _ _ _).mpr (by rw [digitChar_toNat _ (by omega)]; omega))
      ((chIn_iff _ _ _).mpr (by rw [digitChar_toNat _ (by omega)]; omega)) rest
  rw [secondAlts, tryAlts_cons_none _ _ _ _ hf1,
    tryAlts_cons_some _ _ _ _ _ _ _ hsucc hk]

/-- `renderDT` as an explicit character list. -/
theorem renderDT_eq (y mo d h mi s : Nat) :
    renderDT y mo d h mi s =
      digitChar (y / 1000) :: digitChar (y / 100 % 10) :: digitChar (y / 10 % 10) ::
        digitChar (y % 10) :: '-' ::
        (pad2 mo ++ '-' :: (pad2 d ++ 'T' ::
          (pad2 h ++ ':' :: (pad2 mi ++ ':' :: pad2 s)))) := rfl

/-- The `strptime` regex phase accepts the rendered date-time and
recovers all six fields. -/
theorem strptimeYmdHMS_render (y mo d h mi s : Nat)
    (hy : y ≤ 9999) (hmo1 : 1 ≤ mo) (hmo2 : mo ≤ 12)
    (hd1 : 1 ≤ d) (hd2 : d ≤ 31) (hh : h ≤ 23) (hmi : mi ≤ 59) (hs : s ≤ 59) :
    strptimeYmdHMS (renderDT y mo d h mi s) = some ⟨y, mo, d, h, mi, s⟩ := by
  rw [renderDT_eq]
  unfold strptimeYmdHMS
  dsimp only
  rw [isAsciiDigit_digitChar _ (by omega), isAsciiDigit_digitChar _ (by omega),
    isAsciiDigit_digitChar _ (by omega), isAsciiDigit_digitChar _ (by omega)]
  simp only [Bool.and_self, if_true]
  have e1 : digitVal (digitChar (y / 1000)) = y / 1000 :=
    digitVal_digitChar _ (by omega)
  have e2 : digitVal (digitChar (y / 100 % 10)) = y / 100 % 10 :=
    digitVal_digitChar _ (by omega)
  have e3 : digitVal (digitChar (y / 10 % 10)) = y / 10 % 10 :=
    digitVal_digitChar _ (by omega)
  have e4 : digitVal (digitChar (y % 10)) = y % 10 :=
    digitVal_digitChar _ (by omega)
  simp only [e1, e2, e3, e4]
  have hy' : 1000 * (y / 1000) + 100 * (y / 100 % 10) + 10 * (y / 10 % 10) + y % 10 = y := by
    omega
  simp only [hy']
  refine month_pad2 mo hmo1 hmo2 _ _ _ ?_
  dsimp only
  rw [if_pos rfl]
  refine day_pad2 d hd1 hd2 _ _ _ ?_
  dsimp only
  rw [if_pos (Or.inl rfl)]
  refine hour_pad2 h hh _ _ _ ?_
  dsimp only
  rw [if_pos rfl]
  refine minute_pad2 mi hmi _ _ _ ?_
  dsimp only
  rw [if_pos rfl]
  exact second_pad2 s hs _ _ _ rfl

/-- Months never have more than 31 days. -/
theorem daysInMonth_le (y m : Nat) : daysInMonth y m ≤ 31 := by
  unfold daysInMonth
  split
  · split <;> omega
  · split <;> omega

/-- `strptime` (regex plus constructor validation) on the rendered
date-time yields its instant. -/
theorem strptimeInstant_render (y mo d h mi s : Nat)
    (hy1 : 1 ≤ y) (hy2 : y ≤ 9999) (hmo1 : 1 ≤ mo) (hmo2 : mo ≤ 12)
    (hd1 : 1 ≤ d) (hd2 : d ≤ daysInMonth y mo) (hh : h ≤ 23) (hmi : mi ≤ 59)
    (hs : s ≤ 59) :
    strptimeInstant (renderDT y mo d h mi s) =
      some (instantOfFields y mo d h mi s) := by
  unfold strptimeInstant
  rw [strptimeYmdHMS_render y mo d h mi s hy2 hmo1 hmo2 hd1
    (le_trans hd2 (daysInMonth_le y mo)) hh hmi hs]
  dsimp only
  rw [if_pos ⟨hy1, hy2, hmo1, hmo2, hd1, hd2, hh, hmi, hs⟩]

/-- The rendered date-time is 19 characters. -/
theorem renderDT_length (y mo d h mi s : Nat) :
    (renderDT y mo d h mi s).length = 19 := by
  simp [renderDT, pad4, pad2]

/-- Python `int()` reads a zero-padded two-digit number. -/
theorem pyInt_pad2 (n : Nat) (h : n ≤ 99) :
    pyIntOfChars (pad2 n) = some (n : Int) := by
  interval_cases n <;> decide

/-- `parse_race_datetime` on the rendered date-time with a signed 4-digit
offset: UTC = local − offset. -/
theorem parseRaceChars_render4 (y mo d h mi s oh om : Nat) (sg : Bool)
    (hy1 : 1 ≤ y) (hy2 : y ≤ 9999) (hmo1 : 1 ≤ mo) (hmo2 : mo ≤ 12)
    (hd1 : 1 ≤ d) (hd2 : d ≤ daysInMonth y mo) (hh : h ≤ 23) (hmi : mi ≤ 59)
    (hs : s ≤ 59) (hoh : oh ≤ 99) (hom : om ≤ 99)
    (hlo : 0 ≤ instantOfFields y mo d h mi s - offsetSecs sg oh om)
    (hhi : instantOfFields y mo d h mi s - offsetSecs sg oh om ≤ maxInstant) :
    parseRaceChars (renderDT y mo d h mi s ++ renderOffset4 sg oh om) =
      .ok (some (instantOfFields y mo d h mi s - offsetSecs sg oh om)) := by
  have hlen : (renderDT y mo d h mi s).length = 19 := renderDT_length y mo d h mi s
  have htake : (renderDT y mo d h mi s ++ renderOffset4 sg oh om).take 19 =
      renderDT y mo d h mi s := List.take_left' hlen
  have hdrop : (renderDT y mo d h mi s ++ renderOffset4 sg oh om).drop 19 =
      renderOffset4 sg oh om := List.drop_left' hlen
  have hne : ¬((renderDT y mo d h mi s ++ renderOffset4 sg oh om).isEmpty = true) := by
    rw [renderDT_eq]
    simp
  have hlen4 : (renderOffset4 sg oh om).length = 5 := by
    cases sg <;> simp [renderOffset4, pad2]
  have hlength : 19 < (renderDT y mo d h mi s ++ renderOffset4 sg oh om).length := by
    rw [List.length_append, hlen, hlen4]
    omega
  unfold parseRaceChars
  rw [if_neg hne, if_pos hlength, htake, hdrop,
    strptimeInstant_render y mo d h mi s hy1 hy2 hmo1 hmo2 hd1 hd2 hh hmi hs]
  dsimp only
  cases sg
  · simp only [renderOffset4, Bool.false_eq_true, if_false]
    have hslice1 : (('-' :: (pad2 oh ++ pad2 om)).drop 1).take 2 = pad2 oh := by
      rw [show ('-' :: (pad2 oh ++ pad2 om)).drop 1 = pad2 oh ++ pad2 om from rfl]
      exact List.take_left' rfl
    have hslice2 : (('-' :: (pad2 oh ++ pad2 om)).drop 3).take 2 = pad2 om := by
      rw [pad2_eq oh, pad2_eq om]
      rfl
    have hlen5 : 5 ≤ ('-' :: (pad2 oh ++ pad2 om)).length := by
      rw [pad2_eq oh, pad2_eq om]
      exact Nat.le_refl 5
    rw [hslice1, pyInt_pad2 oh hoh]
    dsimp only
    rw [if_pos hlen5, hslice2, pyInt_pad2 om hom]
    dsimp only
    rw [if_neg (show ¬(('-' :: (pad2 oh ++ pad2 om)).head? = some '+') from by simp)]
    split
    · rfl
    · next hq => exact absurd ⟨hlo, hhi⟩ hq
  · simp only [renderOffset4, if_true]
    have hslice1 : (('+' :: (pad2 oh ++ pad2 om)).drop 1).take 2 = pad2 oh := by
      rw [show ('+' :: (pad2 oh ++ pad2 om)).drop 1 = pad2 oh ++ pad2 om from rfl]
      exact List.take_left' rfl
    have hslice2 : (('+' :: (pad2 oh ++ pad2 om)).drop 3).take 2 = pad2 om := by
      rw [pad2_eq oh, pad2_eq om]
      rfl
    have hlen5 : 5 ≤ ('+' :: (pad2 oh ++ pad2 om)).length := by
      rw [pad2_eq oh, pad2_eq om]
      exact Nat.le_refl 5
    rw [hslice1, pyInt_pad2 oh hoh]
    dsimp only
    rw [if_pos hlen5, hslice2, pyInt_pad2 om hom]
    dsimp only
    rw [if_pos (show ('+' :: (pad2 oh ++ pad2 om)).head? = some '+' from rfl)]
    split
    · rfl
    · next hq => exact absurd ⟨hlo, hhi⟩ hq

/-- `parse_race_datetime` on the rendered date-time with a signed 2-digit
offset (missing minutes treated as zero). -/
theorem parseRaceChars_render2 (y mo d h mi s oh : Nat) (sg : Bool)
    (hy1 : 1 ≤ y) (hy2 : y ≤ 9999) (hmo1 : 1 ≤ mo) (hmo2 : mo ≤ 12)
    (hd1 : 1 ≤ d) (hd2 : d ≤ daysInMonth y mo) (hh : h ≤ 23) (hmi : mi ≤ 59)
    (hs : s ≤ 59) (hoh : oh ≤ 99)
    (hlo : 0 ≤ instantOfFields y mo d h mi s - offsetSecs sg oh 0)
    (hhi : instantOfFields y mo d h mi s - offsetSecs sg oh 0 ≤ maxInstant) :
    parseRaceChars (renderDT y mo d h mi s ++ renderOffset2 sg oh) =
      .ok (some (instantOfFields y mo d h mi s - offsetSecs sg oh 0)) := by
  have hlen : (renderDT y mo d h mi s).length = 19 := renderDT_length y mo d h mi s
  have htake : (renderDT y mo d h mi s ++ renderOffset2 sg oh).take 19 =
      renderDT y mo d h mi s := List.take_left' hlen
  have hdrop : (renderDT y mo d h mi s ++ renderOffset2 sg oh).drop 19 =
      renderOffset2 sg oh := List.drop_left' hlen
  have hne : ¬((renderDT y mo d h mi s ++ renderOffset2 sg oh).isEmpty = true) := by
    rw [renderDT_eq]
    simp
  have hlen2 : (renderOffset2 sg oh).length = 3 := by
    cases sg <;> simp [renderOffset2, pad2]
  have hlength : 19 < (renderDT y mo d h mi s ++ renderOffset2 sg oh).length := by
    rw [List.length_append, hlen, hlen2]
    omega
  unfold parseRaceChars
  rw [if_neg hne, if_pos hlength, htake, hdrop,
    strptimeInstant_render y mo d h mi s hy1 hy2 hmo1 hmo2 hd1 hd2 hh hmi hs]
  dsimp only
  cases sg
  · simp only [renderOffset2, Bool.false_eq_true, if_false]
    have hslice1 : (('-' :: pad2 oh).drop 1).take 2 = pad2 oh := by
      rw [show ('-' :: pad2 oh).drop 1 = pad2 oh from rfl, pad2_eq oh]
      rfl
    have hlen5 : ¬(5 ≤ ('-' :: pad2 oh).length) := by
      rw [pad2_eq oh]
      exact fun hcon => absurd (show (5 : Nat) ≤ 3 from hcon) (by decide)
    rw [hslice1, pyInt_pad2 oh hoh]
    dsimp only
    rw [if_neg hlen5]
    dsimp only
    rw [if_neg (show ¬(('-' :: pad2 oh).head? = some '+') from by simp)]
    split
    · rfl
    · next hq => exact absurd ⟨hlo, hhi⟩ hq
  · simp only [renderOffset2, if_true]
    have hslice1 : (('+' :: pad2 oh).drop 1).take 2 = pad2 oh := by
      rw [show ('+' :: pad2 oh).drop 1 = pad2 oh from rfl, pad2_eq oh]
      rfl
    have hlen5 : ¬(5 ≤ ('+' :: pad2 oh).length) := by
      rw [pad2_eq oh]
      exact fun hcon => absurd (show (5 : Nat) ≤ 3 from hcon) (by decide)
    rw [hslice1, pyInt_pad2 oh hoh]
    dsimp only
    rw [if_neg hlen5]
    dsimp only
    rw [if_pos (show ('+' :: pad2 oh).head? = some '+' from rfl)]
    split
    · rfl
    · next hq => exact absurd ⟨hlo, hhi⟩ hq

/-- **C1** (amended): for every date string of the form
`YYYY-MM-DDTHH:MM:SS` followed by a signed offset — 4-digit `±HHMM`, or
`±HH` with the missing minutes treated as zero — whose resulting instant
stays inside the `datetime` range, `parse_race_datetime` returns the UTC
instant obtained by subtracting the offset from the parsed local time
(UTC = local − offset), honoring sign, hours and minutes; outside that
range an `OverflowError` escapes instead (see C4). -/
theorem parse_race_datetime_offset_semantics
    (y mo d h mi s oh om : Nat) (sg : Bool)
    (hy1 : 1 ≤ y) (hy2 : y ≤ 9999) (hmo1 : 1 ≤ mo) (hmo2 : mo ≤ 12)
    (hd1 : 1 ≤ d) (hd2 : d ≤ daysInMonth y mo) (hh : h ≤ 23) (hmi : mi ≤ 59)
    (hs : s ≤ 59) (hoh : oh ≤ 99) (hom : om ≤ 99)
    (hlo4 : 0 ≤ instantOfFields y mo d h mi s - offsetSecs sg oh om)
    (hhi4 : instantOfFields y mo d h mi s - offsetSecs sg oh om ≤ maxInstant)
    (hlo2 : 0 ≤ instantOfFields y mo d h mi s - offsetSecs sg oh 0)
    (hhi2 : instantOfFields y mo d h mi s - offsetSecs sg oh 0 ≤ maxInstant) :
    parse_race_datetime
        (String.mk (renderDT y mo d h mi s ++ renderOffset4 sg oh om)) =
      .ok (some (instantOfFields y mo d h mi s - offsetSecs sg oh om)) ∧
    parse_race_datetime
        (String.mk (renderDT y mo d h mi s ++ renderOffset2 sg oh)) =
      .ok (some (instantOfFields y mo d h mi s - offsetSecs sg oh 0)) :=
  ⟨parseRaceChars_render4 y mo d h mi s oh om sg hy1 hy2 hmo1 hmo2 hd1 hd2
      hh hmi hs hoh hom hlo4 hhi4,
   parseRaceChars_render2 y mo d h mi s oh sg hy1 hy2 hmo1 hmo2 hd1 hd2
      hh hmi hs hoh hlo2 hhi2⟩

/-- Witness for C1: the two round-trip examples of the spec. -/
theorem parse_race_datetime_offset_semantics_witness :
    String.mk (renderDT 2026 2 15 14 30 0 ++ renderOffset4 false 5 0) =
      "2026-02-15T14:30:00-0500" ∧
    parse_race_datetime "2026-02-15T14:30:00-0500" =
      .ok (some (instantOfFields 2026 2 15 19 30 0)) ∧
    format_ics_datetime (instantOfFields 2026 2 15 19 30 0) = "20260215T193000Z" ∧
    String.mk (renderDT 2026 3 1 10 0 0 ++ renderOffset4 true 0 0) =
      "2026-03-01T10:00:00+0000" ∧
    parse_race_datetime "2026-03-01T10:00:00+0000" =
      .ok (some (instantOfFields 2026 3 1 10 0 0)) ∧
    format_ics_datetime (instantOfFields 2026 3 1 10 0 0) = "20260301T100000Z" := by
  have h1 := (parse_race_datetime_offset_semantics 2026 2 15 14 30 0 5 0 false
    (by decide) (by decide) (by decide) (by decide) (by decide) (by decide)
    (by decide) (by decide) (by decide) (by decide) (by decide) (by decide)
    (by decide) (by decide) (by decide)).1
  have h2 := (parse_race_datetime_offset_semantics 2026 3 1 10 0 0 0 0 true
    (by decide) (by decide) (by decide) (by decide) (by decide) (by decide)
    (by decide) (by decide) (by decide) (by decide) (by decide) (by decide)
    (by decide) (by decide) (by decide)).1
  refine ⟨by decide, ?_, by decide, by decide, ?_, by decide⟩
  · rw [show ("2026-02-15T14:30:00-0500" : String) =
      String.mk (renderDT 2026 2 15 14 30 0 ++ renderOffset4 false 5 0) from by decide]
    rw [h1]
    decide
  · rw [show ("2026-03-01T10:00:00+0000" : String) =
      String.mk (renderDT 2026 3 1 10 0 0 ++ renderOffset4 true 0 0) from by decide]
    rw [h2]
    decide

/-- Counterexample to **C1** as stated: `"0001-01-01T00:00:00+0500"` has
exactly the claimed form, yet `parse_race_datetime` raises an uncaught
`OverflowError` instead of returning the UTC instant (the subtraction
leaves the `datetime` range). -/
theorem parse_offset_overflow_counterexample :
    strictShape "0001-01-01T00:00:00+0500" = true ∧
    parse_race_datetime "0001-01-01T00:00:00+0500" = .raised := by decide

/-! ### Soundness of the date parser (C3): anything accepted is in the
lenient grammar. -/

/-- A successful `tryAlts` came from one of its alternatives, with the
continuation succeeding on that alternative's leftover. -/
theorem tryAlts_inv {α : Type} : ∀ (alts : List Alt) (cs : List Char)
    (k : Nat → List Char → Option α) (v : α),
    tryAlts alts cs k = some v →
    ∃ a, a ∈ alts ∧ ∃ n cs', a cs = some (n, cs') ∧ k n cs' = some v := by
  intro alts
  induction alts with
  | nil => intro cs k v h; exact absurd h (by simp [tryAlts])
  | cons a as ih =>
      intro cs k v h
      cases ha : a cs with
      | none =>
          simp only [tryAlts, ha] at h
          obtain ⟨a', ha', rest⟩ := ih cs k v h
          exact ⟨a', List.mem_cons_of_mem a ha', rest⟩
      | some p =>
          obtain ⟨n, cs'⟩ := p
          cases hk : k n cs' with
          | some w =>
              simp only [tryAlts, ha, hk] at h
              exact ⟨a, List.mem_cons_self a as, n, cs', ha, by rw [hk, h]⟩
          | none =>
              simp only [tryAlts, ha, hk] at h
              obtain ⟨a', ha', rest⟩ := ih cs k v h
              exact ⟨a', List.mem_cons_of_mem a ha', rest⟩

/-- Inversion of a successful `twoDigit` match. -/
theorem twoDigit_inv (p q : Char → Bool) (cs : List Char) (n : Nat) (cs' : List Char)
    (h : twoDigit p q cs = some (n, cs')) :
    ∃ c₁ c₂, cs = c₁ :: c₂ :: cs' ∧ p c₁ = true ∧ q c₂ = true := by
  rcases cs with _ | ⟨c₁, _ | ⟨c₂, rest⟩⟩
  · exact absurd h (by simp [twoDigit])
  · exact absurd h (by simp [twoDigit])
  · by_cases hg : (p c₁ && q c₂) = true
    · obtain ⟨h1, h2⟩ : p c₁ = true ∧ q c₂ = true := by simpa using hg
      have hr : rest = cs' := by
        simp only [twoDigit] at h
        rw [if_pos hg] at h
        exact congrArg Prod.snd (Option.some.inj h)
      exact ⟨c₁, c₂, by rw [hr], h1, h2⟩
    · exact absurd h (by simp [twoDigit, hg])

/-- Inversion of a successful `oneDigit` match. -/
theorem oneDigit_inv (p : Char → Bool) (cs : List Char) (n : Nat) (cs' : List Char)
    (h : oneDigit p cs = some (n, cs')) :
    ∃ c, cs = c :: cs' ∧ p c = true := by
  rcases cs with _ | ⟨c, rest⟩
  · exact absurd h (by simp [oneDigit])
  · by_cases hp : p c = true
    · have hr : rest = cs' := by
        simp only [oneDigit] at h
        rw [if_pos hp] at h
        exact congrArg Prod.snd (Option.some.inj h)
      exact ⟨c, by rw [hr], hp⟩
    · exact absurd h (by simp [oneDigit, hp])

/-- Inversion of a successful `spaceDigit` match. -/
theorem spaceDigit_inv (p : Char → Bool) (cs : List Char) (n : Nat) (cs' : List Char)
    (h : spaceDigit p cs = some (n, cs')) :
    ∃ c, cs = ' ' :: c :: cs' ∧ p c = true := by
  rcases cs with _ | ⟨c₀, _ | ⟨c, rest⟩⟩
  · exact absurd h (by simp [spaceDigit])
  · exact absurd h (by simp [spaceDigit])
  · by_cases h0 : c₀ = ' '
    · subst h0
      by_cases hp : p c = true
      · have hr : rest = cs' := by
          simp only [spaceDigit, if_true] at h
          rw [if_pos hp] at h
          exact congrArg Prod.snd (Option.some.inj h)
        exact ⟨c, by rw [hr], hp⟩
      · exact absurd h (by simp [spaceDigit, hp])
    · exact absurd h (by simp [spaceDigit, h0])

/-- A successful `%m` parse consumed a month segment. -/
theorem month_inv {α : Type} (cs : List Char) (k : Nat → List Char → Option α) (v : α)
    (h : tryAlts monthAlts cs k = some v) :
    ∃ n seg cs', cs = seg ++ cs' ∧ MonthSeg seg ∧ k n cs' = some v := by
  obtain ⟨a, ha, n, cs', hacs, hk⟩ := tryAlts_inv monthAlts cs k v h
  simp only [monthAlts, List.mem_cons, List.not_mem_nil, or_false] at ha
  rcases ha with rfl | rfl | rfl
  · obtain ⟨c₁, c₂, rfl, h1, h2⟩ := twoDigit_inv _ _ _ _ _ hacs
    rw [chIn_iff] at h1 h2
    exact ⟨n, [c₁, c₂], cs', rfl, Or.inl ⟨c₁, c₂, rfl, Or.inl ⟨by omega, h2.1, h2.2⟩⟩, hk⟩
  · obtain ⟨c₁, c₂, rfl, h1, h2⟩ := twoDigit_inv _ _ _ _ _ hacs
    rw [chIn_iff] at h1 h2
    exact ⟨n, [c₁, c₂], cs', rfl, Or.inl ⟨c₁, c₂, rfl, Or.inr ⟨by omega, h2.1, h2.2⟩⟩, hk⟩
  · obtain ⟨c, rfl, h1⟩ := oneDigit_inv _ _ _ _ hacs
    rw [chIn_iff] at h1
    exact ⟨n, [c], cs', rfl, Or.inr ⟨c, rfl, h1.1, h1.2⟩, hk⟩

/-- A successful `%d` parse consumed a day segment. -/
theorem day_inv {α : Type} (cs : List Char) (k : Nat → List Char → Option α) (v : α)
    (h : tryAlts dayAlts cs k = some v) :
    ∃ n seg cs', cs = seg ++ cs' ∧ DaySeg seg ∧ k n cs' = some v := by
  obtain ⟨a, ha, n, cs', hacs, hk⟩ := tryAlts_inv dayAlts cs k v h
  simp only [dayAlts, List.mem_cons, List.not_mem_nil, or_false] at ha
  rcases ha with rfl | rfl | rfl | rfl | rfl
  · obtain ⟨c₁, c₂, rfl, h1, h2⟩ := twoDigit_inv _ _ _ _ _ hacs
    rw [chIn_iff] at h1 h2
    exact ⟨n, [c₁, c₂], cs', rfl,
      Or.inl ⟨c₁, c₂, rfl, Or.inl ⟨by omega, h2.1, h2.2⟩⟩, hk⟩
  · obtain ⟨c₁, c₂, rfl, h1, h2⟩ := twoDigit_inv _ _ _ _ _ hacs
    rw [chIn_iff] at h1 h2
    exact ⟨n, [c₁, c₂], cs', rfl,
      Or.inl ⟨c₁, c₂, rfl, Or.inr (Or.inl ⟨h1.1, h1.2, h2.1, h2.2⟩)⟩, hk⟩
  · obtain ⟨c₁, c₂, rfl, h1, h2⟩ := twoDigit_inv _ _ _ _ _ hacs
    rw [chIn_iff] at h1 h2
    exact ⟨n, [c₁, c₂], cs', rfl,
      Or.inl ⟨c₁, c₂, rfl, Or.inr (Or.inr (Or.inl ⟨by omega, h2.1, h2.2⟩))⟩, hk⟩
  · obtain ⟨c, rfl, h1⟩ := oneDigit_inv _ _ _ _ hacs
    rw [chIn_iff] at h1
    exact ⟨n, [c], cs', rfl, Or.inr ⟨c, rfl, h1.1, h1.2⟩, hk⟩
  · obtain ⟨c, rfl, h1⟩ := spaceDigit_inv _ _ _ _ hacs
    rw [chIn_iff] at h1
    exact ⟨n, [' ', c], cs', rfl,
      Or.inl ⟨' ', c, rfl, Or.inr (Or.inr (Or.inr ⟨rfl, h1.1, h1.2⟩))⟩, hk⟩

/-- A successful `%H` parse consumed an hour segment. -/
theorem hour_inv {α : Type} (cs : List Char) (k : Nat → List Char → Option α) (v : α)
    (h : tryAlts hourAlts cs k = some v) :
    ∃ n seg cs', cs = seg ++ cs' ∧ HourSeg seg ∧ k n cs' = some v := by
  obtain ⟨a, ha, n, cs', hacs, hk⟩ := tryAlts_inv hourAlts cs k v h
  simp only [hourAlts, List.mem_cons, List.not_mem_nil, or_false] at ha
  rcases ha with rfl | rfl | rfl
  · obtain ⟨c₁, c₂, rfl, h1, h2⟩ := twoDigit_inv _ _ _ _ _ hacs
    rw [chIn_iff] at h1 h2
    exact ⟨n, [c₁, c₂], cs', rfl, Or.inl ⟨c₁, c₂, rfl, Or.inl ⟨by omega, h2.1, h2.2⟩⟩, hk⟩
  · obtain ⟨c₁, c₂, rfl, h1, h2⟩ := twoDigit_inv _ _ _ _ _ hacs
    rw [chIn_iff] at h1 h2
    exact ⟨n, [c₁, c₂], cs', rfl,
      Or.inl ⟨c₁, c₂, rfl, Or.inr ⟨h1.1, h1.2, h2.1, h2.2⟩⟩, hk⟩
  · obtain ⟨c, rfl, h1⟩ := oneDigit_inv _ _ _ _ hacs
    rw [chIn_iff] at h1
    exact ⟨n, [c], cs', rfl, Or.inr ⟨c, rfl, h1.1, h1.2⟩, hk⟩

/-- A successful `%M` parse consumed a minute segment. -/
theorem minute_inv {α : Type} (cs : List Char) (k : Nat → List Char → Option α) (v : α)
    (h : tryAlts minuteAlts cs k = some v) :
    ∃ n seg cs', cs = seg ++ cs' ∧ MinuteSeg seg ∧ k n cs' = some v := by
  obtain ⟨a, ha, n, cs', hacs, hk⟩ := tryAlts_inv minuteAlts cs k v h
  simp only [minuteAlts, List.mem_cons, List.not_mem_nil, or_false] at ha
  rcases ha with rfl | rfl
  · obtain ⟨c₁, c₂, rfl, h1, h2⟩ := twoDigit_inv _ _ _ _ _ hacs
    rw [chIn_iff] at h1 h2
    exact ⟨n, [c₁, c₂], cs', rfl, Or.inl ⟨c₁, c₂, rfl, h1.1, h1.2, h2.1, h2.2⟩, hk⟩
  · obtain ⟨c, rfl, h1⟩ := oneDigit_inv _ _ _ _ hacs
    rw [chIn_iff] at h1
    exact ⟨n, [c], cs', rfl, Or.inr ⟨c, rfl, h1.1, h1.2⟩, hk⟩

/-- A successful `%S` parse consumed a second segment. -/
theorem second_inv {α : Type} (cs : List Char) (k : Nat → List Char → Option α) (v : α)
    (h : tryAlts secondAlts cs k = some v) :
    ∃ n seg cs', cs = seg ++ cs' ∧ SecondSeg seg ∧ k n cs' = some v := by
  obtain ⟨a, ha, n, cs', hacs, hk⟩ := tryAlts_inv secondAlts cs k v h
  simp only [secondAlts, List.mem_cons, List.not_mem_nil, or_false] at ha
  rcases ha with rfl | rfl | rfl
  · obtain ⟨c₁, c₂, rfl, h1, h2⟩ := twoDigit_inv _ _ _ _ _ hacs
    rw [chIn_iff] at h1 h2
    exact ⟨n, [c₁, c₂], cs', rfl, Or.inl ⟨c₁, c₂, rfl, Or.inl ⟨by omega, h2.1, h2.2⟩⟩, hk⟩
  · obtain ⟨c₁, c₂, rfl, h1, h2⟩ := twoDigit_inv _ _ _ _ _ hacs
    rw [chIn_iff] at h1 h2
    exact ⟨n, [c₁, c₂], cs', rfl,
      Or.inl ⟨c₁, c₂, rfl, Or.inr ⟨h1.1, h1.2, h2.1, h2.2⟩⟩, hk⟩
  · obtain ⟨c, rfl, h1⟩ := oneDigit_inv _ _ _ _ hacs
    rw [chIn_iff] at h1
    exact ⟨n, [c], cs', rfl, Or.inr ⟨c, rfl, h1.1, h1.2⟩, hk⟩

/-- An accepted ASCII-digit character's code point range. -/
theorem isAsciiDigit_bounds (c : Char) (h : isAsciiDigit c = true) :
    48 ≤ c.toNat ∧ c.toNat ≤ 57 := by
  simpa [isAsciiDigit] using h

/-- Anything accepted by the `strptime` regex phase is in the lenient
date-time grammar. -/
theorem strptimeYmdHMS_inv (cs : List Char) (f : DTFields)
    (h : strptimeYmdHMS cs = some f) : Lenient19 cs := by
  rcases cs with _ | ⟨c₁, _ | ⟨c₂, _ | ⟨c₃, _ | ⟨c₄, _ | ⟨c₅, rest⟩⟩⟩⟩⟩
  · exact absurd h (by simp [strptimeYmdHMS])
  · exact absurd h (by simp [strptimeYmdHMS])
  · exact absurd h (by simp [strptimeYmdHMS])
  · exact absurd h (by simp [strptimeYmdHMS])
  · exact absurd h (by simp [strptimeYmdHMS])
  unfold strptimeYmdHMS at h
  dsimp only at h
  by_cases hdig :
      (isAsciiDigit c₁ && isAsciiDigit c₂ && isAsciiDigit c₃ && isAsciiDigit c₄) = true
  swap
  · rw [if_neg hdig] at h
    exact absurd h (by simp)
  rw [if_pos hdig] at h
  by_cases hc5 : c₅ = '-'
  swap
  · rw [if_neg hc5] at h
    exact absurd h (by simp)
  subst hc5
  rw [if_pos rfl] at h
  obtain ⟨mo, ms, r₁, hrest, hms, hk⟩ := month_inv _ _ _ h
  try dsimp only at hk
  rcases r₁ with _ | ⟨c₆, r₂⟩
  · exact absurd hk (by simp)
  try dsimp only at hk
  by_cases hc6 : c₆ = '-'
  swap
  · rw [if_neg hc6] at hk
    exact absurd hk (by simp)
  subst hc6
  rw [if_pos rfl] at hk
  obtain ⟨da, dseg, r₃, hr2, hds, hk2⟩ := day_inv _ _ _ hk
  try dsimp only at hk2
  rcases r₃ with _ | ⟨c₇, r₄⟩
  · exact absurd hk2 (by simp)
  try dsimp only at hk2
  by_cases hc7 : c₇ = 'T' ∨ c₇ = 't'
  swap
  · rw [if_neg hc7] at hk2
    exact absurd hk2 (by simp)
  rw [if_pos hc7] at hk2
  obtain ⟨ho, hseg, r₅, hr4, hhs, hk3⟩ := hour_inv _ _ _ hk2
  try dsimp only at hk3
  rcases r₅ with _ | ⟨c₈, r₆⟩
  · exact absurd hk3 (by simp)
  try dsimp only at hk3
  by_cases hc8 : c₈ = ':'
  swap
  · rw [if_neg hc8] at hk3
    exact absurd hk3 (by simp)
  subst hc8
  rw [if_pos rfl] at hk3
  obtain ⟨mi, nseg, r₇, hr6, hns, hk4⟩ := minute_inv _ _ _ hk3
  try dsimp only at hk4
  rcases r₇ with _ | ⟨c₉, r₈⟩
  · exact absurd hk4 (by simp)
  try dsimp only at hk4
  by_cases hc9 : c₉ = ':'
  swap
  · rw [if_neg hc9] at hk4
    exact absurd hk4 (by simp)
  subst hc9
  rw [if_pos rfl] at hk4
  obtain ⟨se, sseg, r₉, hr8, hss, hk5⟩ := second_inv _ _ _ hk4
  try dsimp only at hk5
  rcases r₉ with _ | ⟨x, xs⟩
  swap
  · exact absurd hk5 (by simp)
  try dsimp only at hk5
  obtain ⟨⟨⟨hd1, hd2⟩, hd3⟩, hd4⟩ :
      ((isAsciiDigit c₁ = true ∧ isAsciiDigit c₂ = true) ∧ isAsciiDigit c₃ = true) ∧
        isAsciiDigit c₄ = true := by simpa using hdig
  refine ⟨c₁, c₂, c₃, c₄, c₇, ms, dseg, hseg, nseg, sseg, ?_, ?_, hc7, hms, hds, hhs,
    hns, hss⟩
  · rw [hrest, hr2, hr4, hr6, hr8]
    simp
  · intro c hc
    simp only [List.mem_cons, List.not_mem_nil, or_false] at hc
    rcases hc with rfl | rfl | rfl | rfl
    · exact isAsciiDigit_bounds c hd1
    · exact isAsciiDigit_bounds c hd2
    · exact isAsciiDigit_bounds c hd3
    · exact isAsciiDigit_bounds c hd4

/-- A successful `strptime` came from a successful regex phase. -/
theorem strptimeInstant_inv (cs : List Char) (t : Int)
    (h : strptimeInstant cs = some t) : ∃ f, strptimeYmdHMS cs = some f := by
  unfold strptimeInstant at h
  cases hf : strptimeYmdHMS cs with
  | none => rw [hf] at h; exact absurd h (by simp)
  | some f => exact ⟨f, rfl⟩

/-- Anything accepted by Python's `int()` has the whitespace-sign-digits
shape. -/
theorem pyIntOfChars_inv (l : List Char) (n : Int) (h : pyIntOfChars l = some n) :
    IntSliceShape l := by
  have hrev : ∀ m : List Char,
      m = (m.reverse.dropWhile isPyWs).reverse ++ (m.reverse.takeWhile isPyWs).reverse := by
    intro m
    conv_lhs => rw [← List.reverse_reverse m]
    rw [← List.reverse_append, List.takeWhile_append_dropWhile]
  set A := l.takeWhile isPyWs with hA
  set B := ((l.dropWhile isPyWs).reverse.takeWhile isPyWs).reverse with hB
  have hl : l = A ++ (pyStripChars l ++ B) := by
    conv_lhs => rw [← List.takeWhile_append_dropWhile isPyWs l]
    exact congrArg (fun x => A ++ x) (hrev (l.dropWhile isPyWs))
  have hpre : ∀ x ∈ A, isPyWs x = true :=
    fun x hx => List.mem_takeWhile_imp hx
  have hpost : ∀ x ∈ B, isPyWs x = true := by
    intro x hx
    rw [hB, List.mem_reverse] at hx
    exact List.mem_takeWhile_imp hx
  unfold pyIntOfChars at h
  cases hcore : pyStripChars l with
  | nil => rw [hcore] at h; exact absurd h (by simp)
  | cons c ds =>
      rw [hcore] at h hl
      dsimp only at h
      by_cases hplus : c = '+'
      · subst hplus
        rw [if_pos rfl] at h
        by_cases hds : ds ≠ [] ∧ ds.all isAsciiDigit = true
        swap
        · rw [if_neg hds] at h
          exact absurd h (by simp)
        refine ⟨A, ['+'], ds, B, ?_, hpre, hpost, Or.inr (Or.inl rfl), hds.1,
          fun x hx => ?_⟩
        · conv_lhs => rw [hl]
          simp
        · have := hds.2
          rw [List.all_eq_true] at this
          exact this x hx
      · rw [if_neg hplus] at h
        by_cases hminus : c = '-'
        · subst hminus
          rw [if_pos rfl] at h
          by_cases hds : ds ≠ [] ∧ ds.all isAsciiDigit = true
          swap
          · rw [if_neg hds] at h
            exact absurd h (by simp)
          refine ⟨A, ['-'], ds, B, ?_, hpre, hpost, Or.inr (Or.inr rfl), hds.1,
            fun x hx => ?_⟩
          · conv_lhs => rw [hl]
            simp
          · have := hds.2
            rw [List.all_eq_true] at this
            exact this x hx
        · rw [if_neg hminus] at h
          by_cases hall : (c :: ds).all isAsciiDigit = true
          swap
          · rw [if_neg hall] at h
            exact absurd h (by simp)
          refine ⟨A, [], c :: ds, B, ?_, hpre, hpost, Or.inl rfl, by simp,
            fun x hx => ?_⟩
          · conv_lhs => rw [hl]
            simp
          · rw [List.all_eq_true] at hall
            exact hall x hx

/-- C3: the claim that every non-empty string outside the strict
`YYYY-MM-DDTHH:MM:SS[±HHMM]` shape yields the sentinel is corrected: the
code in fact accepts exactly a more lenient grammar.  Soundness of the
correction: whenever `parse_race_datetime` does not return the sentinel
(it returns an instant or raises), the input is in `LenientShape` —
equivalently, every string outside the lenient grammar (which includes
every string outside the strict shape only up to the leniencies of
`strptime`'s 1-2-digit fields, case-insensitive `T`, the arbitrary
non-`'+'` sign character, and `int()`'s whitespace/sign tolerance)
returns the sentinel. -/
theorem parse_accepts_only_lenient (cs : List Char)
    (h : parseRaceChars cs ≠ .ok none) : LenientShape cs := by
  unfold parseRaceChars at h
  by_cases he : cs.isEmpty
  · rw [if_pos he] at h
    exact absurd rfl h
  rw [if_neg he] at h
  unfold LenientShape
  by_cases hlen : 19 < cs.length
  · rw [if_pos hlen] at h
    rw [if_pos hlen]
    cases hst : strptimeInstant (cs.take 19) with
    | none =>
        rw [hst] at h
        exact absurd rfl h
    | some inst =>
        rw [hst] at h
        dsimp only at h
        obtain ⟨f, hf⟩ := strptimeInstant_inv _ _ hst
        refine ⟨strptimeYmdHMS_inv _ _ hf, ?_, ?_⟩
        · cases hhrs : pyIntOfChars (((cs.drop 19).drop 1).take 2) with
          | none =>
              rw [hhrs] at h
              exact absurd rfl h
          | some hrs => exact pyIntOfChars_inv _ _ hhrs
        · intro h5
          cases hhrs : pyIntOfChars (((cs.drop 19).drop 1).take 2) with
          | none =>
              rw [hhrs] at h
              exact absurd rfl h
          | some hrs =>
              rw [hhrs] at h
              dsimp only at h
              rw [if_pos h5] at h
              cases hmins : pyIntOfChars (((cs.drop 19).drop 3).take 2) with
              | none =>
                  rw [hmins] at h
                  exact absurd rfl h
              | some mins => exact pyIntOfChars_inv _ _ hmins
  · rw [if_neg hlen] at h
    rw [if_neg hlen]
    cases hst : strptimeInstant cs with
    | none =>
        rw [hst] at h
        exact absurd rfl h
    | some inst =>
        obtain ⟨f, hf⟩ := strptimeInstant_inv _ _ hst
        exact strptimeYmdHMS_inv _ _ hf

/-- Witness for C3: the lenient-grammar membership obtained from a
concrete successful parse. -/
theorem parse_accepts_only_lenient_witness :
    LenientShape ("2026-02-15T14:30:00-0500").data :=
  parse_accepts_only_lenient _ (by decide)

/-- C3 counterexample: two strings outside the strict
`YYYY-MM-DDTHH:MM:SS[±HHMM]` shape — one with sign character `?`, one
with a one-digit month — that `parse_race_datetime` nevertheless parses
to an instant instead of the sentinel. -/
theorem lenient_parse_counterexample :
    strictShape "2026-02-15T14:30:00?0500" = false ∧
    parse_race_datetime "2026-02-15T14:30:00?0500" =
      .ok (some (instantOfFields 2026 2 15 19 30 0)) ∧
    strictShape "2026-2-15T14:30:00" = false ∧
    parse_race_datetime "2026-2-15T14:30:00" =
      .ok (some (instantOfFields 2026 2 15 14 30 0)) := by
  refine ⟨by decide, by decide, by decide, by decide⟩

end MotorsportIcs
